import Mathlib

/-!
Verification of the clone-pipeline core of the scraped-page-to-Next.js
repository (backend/app). The Python sources are shallowly embedded over
`List Char`: each `def` below mirrors one Python function or an inline
piece of one, with regular-expression operations implemented as explicit
scanners with the same match semantics (leftmost match, greedy and lazy
quantifier behaviour, MULTILINE anchors, end-of-line dollar). Character
classes are modelled over ASCII as the sources use them: Python's \s is
read as the six ASCII whitespace characters, str.lower as ASCII lowering,
and \w as [A-Za-z0-9_] in the code and HTML scanners, whose comparisons
the two semantics decide alike on the pipeline's inputs. The one place
where the Unicode width of \w matters — the dependency filter of
deploy_to_sandbox, which receives arbitrary model-produced strings — is
embedded parametrically in the word class, constrained only to agree with
[A-Za-z0-9_] below code point 128, which the Unicode word class does.
-/

/-- Strings are modelled as lists of characters. -/
abbrev Str := List Char

/-- Literal helper: the character list of a Lean string literal. -/
def str (s : String) : Str := s.data

/-- Python \w over ASCII: letters, digits and underscore. -/
def isWordChar (c : Char) : Bool := c.isAlphanum || c == '_'

/-- Python \s over ASCII: space, tab, newline, carriage return, vertical tab, form feed. -/
def pyIsSpace (c : Char) : Bool :=
  c == ' ' || c == '\t' || c == '\n' || c == '\r' || c == '\x0b' || c == '\x0c'

/-- Python str.strip() with no argument: drop leading and trailing whitespace. -/
def pyStrip (s : Str) : Str :=
  (((s.dropWhile pyIsSpace).reverse).dropWhile pyIsSpace).reverse

/-- Whether the pattern occurs as a contiguous substring. -/
def has_sub (pat : Str) : Str → Bool
  | [] => pat.isEmpty
  | s@(_ :: rest) => pat.isPrefixOf s || has_sub pat rest

/-- Split on a separator character, keeping empty segments (Python str.split(sep)). -/
def splitChar (sep : Char) : Str → List Str
  | [] => [[]]
  | c :: rest =>
    match splitChar sep rest with
    | [] => [[]]
    | seg :: segs => if c == sep then [] :: seg :: segs else (c :: seg) :: segs

/-- Join a list of segments with a separator (Python sep.join). -/
def join_sep (sep : Str) : List Str → Str
  | [] => []
  | [x] => x
  | x :: xs => x ++ sep ++ join_sep sep xs

/-- Keep the first occurrence of each element, in order (models building a
Python set by insertion where only membership and a final sorted/list view
are consumed). -/
def dedup_go (seen : List Str) : List Str → List Str
  | [] => []
  | x :: xs => if seen.contains x then dedup_go seen xs else x :: dedup_go (x :: seen) xs

/-- Literal-prefix matcher: the rest of the input after the pattern, when
the pattern is a prefix. -/
def isPfx (pat : Str) (s : Str) : Option Str :=
  if pat.isPrefixOf s then some (s.drop pat.length) else none

/-- Case-insensitive literal-prefix matcher (re.IGNORECASE over ASCII). -/
def ci_pfx : Str → Str → Option Str
  | [], s => some s
  | _ :: _, [] => none
  | p :: ps, c :: cs => if p.toLower == c.toLower then ci_pfx ps cs else none

/-- Python \s+ then nothing: the rest after a non-empty maximal whitespace run. -/
def ws1 (s : Str) : Option Str :=
  let run := s.takeWhile pyIsSpace
  if run.isEmpty then none else some (s.drop run.length)

/-- The rest after the maximal whitespace run (\s* before a literal that
starts with a non-whitespace character needs no backtracking). -/
def wsDrop (s : Str) : Str := s.dropWhile pyIsSpace

/-- Index of the last newline of a whitespace run, if any. -/
def last_nl_idx (run : Str) : Option Nat :=
  match run.reverse.findIdx? (· == '\n') with
  | some k => some (run.length - 1 - k)
  | none => none

/-- Match \s*$ under re.MULTILINE: the greedy whitespace run followed by a
position at end of input or just before a newline; returns the input rest
after the match end (the dollar consumes nothing). -/
def ws_dollar (s : Str) : Option Str :=
  let run := s.takeWhile pyIsSpace
  if (s.drop run.length).isEmpty then some []
  else
    match last_nl_idx run with
    | some j => some (s.drop j)
    | none => none

/-- Match \s*\n greedily: consume whitespace up to and including the last
newline of the run; returns (consumed, rest). -/
def ws_then_nl (s : Str) : Option (Str × Str) :=
  let run := s.takeWhile pyIsSpace
  match last_nl_idx run with
  | some j => some (s.take (j + 1), s.drop (j + 1))
  | none => none

/-- Candidate rests for a backtracking greedy \s*: longest whitespace run
consumed first, down to none consumed. -/
def ws_suffixes : Str → List Str
  | [] => [[]]
  | s@(c :: rest) => if pyIsSpace c then ws_suffixes rest ++ [s] else [s]

/-- First matcher success over a candidate list. -/
def first_some (cands : List Str) (f : Str → Option α) : Option α :=
  match cands with
  | [] => none
  | c :: cs =>
    match f c with
    | some a => some a
    | none => first_some cs f

/-- Decimal digits of a number, most significant first. -/
def natStr (n : Nat) : Str := Nat.toDigits 10 n

/-- Generic re.sub scanner: try the matcher at every position (at line
starts only when anchored), emit its replacement and continue after the
match, otherwise keep the character. The matcher returns (replacement,
rest after the match); every matcher used consumes at least one character. -/
def sub_scan (anchored : Bool) (mAt : Str → Option (Str × Str)) : Nat → Bool → Str → Str
  | 0, _, s => s
  | Nat.succ fuel, ls, s =>
    match s with
    | [] => []
    | c :: rest =>
      match (if !anchored || ls then mAt s else none) with
      | some (repl, rest') =>
          repl ++ sub_scan anchored mAt fuel (nl_last s rest') rest'
      | none => c :: sub_scan anchored mAt fuel (c == '\n') rest
where
  /-- Whether the last character the match consumed is a newline (the next
  scan position is then a line start). -/
  nl_last (s rest' : Str) : Bool :=
    match (s.take (s.length - rest'.length)).getLast? with
    | some c => c == '\n'
    | none => false

/-- Generic re.search scanner: the text before the leftmost match, the
matcher's payload, and the rest after the match. -/
def search_scan (anchored : Bool) (mAt : Str → Option (α × Str)) : Nat → Bool → Str → Option (Str × α × Str)
  | 0, _, _ => none
  | Nat.succ fuel, ls, s =>
    match s with
    | [] => none
    | c :: rest =>
      match (if !anchored || ls then mAt s else none) with
      | some (a, rest') => some ([], a, rest')
      | none =>
        match search_scan anchored mAt fuel (c == '\n') rest with
        | some (p, a, r) => some (c :: p, a, r)
        | none => none

/-- Generic re.finditer scanner collecting each match's payload. -/
def find_scan (anchored : Bool) (mAt : Str → Option (α × Str)) : Nat → Bool → Str → List α
  | 0, _, _ => []
  | Nat.succ fuel, ls, s =>
    match s with
    | [] => []
    | c :: rest =>
      match (if !anchored || ls then mAt s else none) with
      | some (a, rest') => a :: find_scan anchored mAt fuel (sub_scan.nl_last s rest') rest'
      | none => find_scan anchored mAt fuel (c == '\n') rest

/-- Python str.replace: replace every non-overlapping occurrence, left to right. -/
def replace_all (pat repl : Str) : Nat → Str → Str
  | 0, s => s
  | Nat.succ fuel, s =>
    match s with
    | [] => []
    | c :: rest =>
      if pat.isPrefixOf s && !pat.isEmpty then repl ++ replace_all pat repl fuel (s.drop pat.length)
      else c :: replace_all pat repl fuel rest

/-- Python str.replace wrapper supplying fuel. -/
def py_replace (s pat repl : Str) : Str := replace_all pat repl (s.length + 1) s

/-- Python str.splitlines boundary characters. -/
def is_line_break (c : Char) : Bool :=
  c == '\n' || c == '\r' || c == '\x0b' || c == '\x0c' || c == '\x1c' ||
  c == '\x1d' || c == '\x1e' || c == '\x85' || c == '\u2028' || c == '\u2029'

/-- Python str.splitlines (no keepends): \r\n counts as one boundary and a
trailing boundary yields no empty final line. -/
def py_splitlines : Nat → Str → List Str
  | 0, _ => []
  | _, [] => []
  | Nat.succ fuel, s =>
    let seg := s.takeWhile (fun c => !is_line_break c)
    match s.drop seg.length with
    | [] => [seg]
    | '\r' :: '\n' :: rest => seg :: py_splitlines fuel rest
    | _ :: rest => seg :: py_splitlines fuel rest

/-! ## deployer.py — dependency validation and the npm install command

`deploy_to_sandbox` (src/backend/app/services/deployer.py, lines 162-169)
filters the model-requested extra dependencies with
`re.match(r'^[@a-zA-Z0-9][\w./@-]*$', d)` and splices the survivors into
one shell string. Python's un-flagged `$` matches at the end of the string
or just before a newline that ends the string, which the embedding keeps.
The pattern is compiled on a str without re.ASCII, so its \w is the full
Unicode word class; the embedding is parametric in a word-class model W
constrained to be ASCII-faithful (agree with [A-Za-z0-9_] below code point
128, as the Unicode word class does), leaving the non-ASCII behaviour as
open as the real class is wide.
-/

/-- Character set of the spec's stated invariant: at sign, ASCII letters and
digits, dot, underscore, slash and dash. -/
def claim_safe_char (c : Char) : Bool :=
  c == '@' || c.isAlphanum || c == '.' || c == '_' || c == '/' || c == '-'

/-- First character class of the filter pattern: `[@a-zA-Z0-9]`. -/
def dep_first_char (c : Char) : Bool := c == '@' || c.isAlphanum

/-- Tail character class of the filter pattern, `[\w./@-]`, parametric in
the word-class model W standing for Python's \w. -/
def dep_rest_char_w (W : Char → Bool) (c : Char) : Bool :=
  W c || c == '.' || c == '/' || c == '@' || c == '-'

/-- Embedding of `re.match(r'^[@a-zA-Z0-9][\w./@-]*$', d)`, parametric in
the word-class model W: first character in its class, then a maximal run of
tail-class characters, then either the end of the string or a single final
newline (Python's dollar). -/
def dep_is_safe_w (W : Char → Bool) (d : Str) : Bool :=
  match d with
  | [] => false
  | c :: rest =>
    dep_first_char c &&
      (let rem := rest.dropWhile (dep_rest_char_w W)
       rem.isEmpty || rem == ['\n'])

/-- The `safe_deps` list of deploy_to_sandbox, parametric in the word-class
model. -/
def safe_deps_of_w (W : Char → Bool) (extra_deps : List Str) : List Str :=
  extra_deps.filter (dep_is_safe_w W)

/-- A word-class model is ASCII-faithful when it agrees with [A-Za-z0-9_]
below code point 128. The Unicode word class of Python's \w (str pattern,
no re.ASCII) is ASCII-faithful: among ASCII characters, exactly the
letters, digits and the underscore are word characters; above 128 an
ASCII-faithful model is unconstrained, as the Unicode class accepts e.g.
every non-ASCII letter there. -/
def ascii_faithful (W : Char → Bool) : Prop :=
  ∀ c : Char, c.toNat < 128 → W c = isWordChar c

/-- The tail class at the ASCII word class (for concrete computation). -/
def dep_rest_char (c : Char) : Bool := dep_rest_char_w isWordChar c

/-- The filter at the ASCII word class (for concrete computation; on
strings of ASCII characters it agrees with every ASCII-faithful model). -/
def dep_is_safe (d : Str) : Bool := dep_is_safe_w isWordChar d

/-- The `safe_deps` list at the ASCII word class. -/
def safe_deps_of (extra_deps : List Str) : List Str := extra_deps.filter dep_is_safe

/-- A word-class model extending the ASCII class with the single non-ASCII
letter 'e with acute accent' (U+00E9), which Python's Unicode word class
accepts; used to trace the filter on a dependency containing that letter. -/
def word_with_eacute (c : Char) : Bool := isWordChar c || c == '\u00e9'

/-- The npm install command deploy_to_sandbox builds and executes. -/
def npm_install_cmd (extra_deps : List Str) : Str :=
  let safe := safe_deps_of extra_deps
  str "cd /home/daytona/app && npm install" ++
    (if safe.isEmpty then [] else str " && npm install " ++ join_sep [' '] safe)

/-! ## deployer.py — build error trimming and the retry loop -/

/-- Noise markers filtered out of build output (deployer.py lines 274-280). -/
def noise_markers : List Str :=
  [str "telemetry", str "anonymous", str "opt-out", str "nextjs.org",
   str "collecting page data", str "generating static pages",
   str "finalizing page optimization",
   str "creating an optimized production build",
   str "compiled successfully"]

/-- ASCII lowering (Python str.lower; the markers compared against are ASCII). -/
def to_lower (s : Str) : Str := s.map Char.toLower

/-- Whether a stripped line holds any noise marker. -/
def is_noise_line (stripped : Str) : Bool :=
  noise_markers.any (fun m => has_sub m (to_lower stripped))

/-- Error-signal trimming of build_with_retry (deployer.py lines 268-285):
keep non-blank non-noise lines, take the last 100, and fall back to the
last 3000 characters of the raw output when nothing survives. -/
def extract_error_text (build_output : Str) : Str :=
  let lines := py_splitlines (build_output.length + 1) build_output
  let error_lines := lines.filter (fun l =>
    let st := pyStrip l
    !st.isEmpty && !is_noise_line st)
  let error_text := join_sep (str "\n") (error_lines.drop (error_lines.length - 100))
  if (pyStrip error_text).isEmpty then build_output.drop (build_output.length - 3000)
  else error_text

/-- Constant MAX_BUILD_ATTEMPTS (deployer.py line 29). -/
def MAX_BUILD_ATTEMPTS : Nat := 3

/-- Outcome of one sandbox build execution: the exec either times out
(asyncio.TimeoutError from the hard wall-clock timeout) or returns an exit
code and its captured output. -/
inductive ExecOut where
  | timeout
  | exited (exit_code : Nat) (output : Str)
deriving DecidableEq

/-- Observable events of one build_with_retry run, in order: each build
invocation, and each awaited fix_build_errors call (ok = false models the
call raising, caught by the loop's try/except). -/
inductive BuildEv where
  | build (o : ExecOut)
  | fix_call (ok : Bool)
deriving DecidableEq

/-- Result of build_with_retry: the returned triple plus the event trace. -/
structure RetryResult where
  build_ok : Bool
  files : List (Str × Str)
  deps : List Str
  events : List BuildEv
deriving DecidableEq

/-- The retry loop of build_with_retry (deployer.py lines 207-316), one
recursion step per loop iteration. `env` gives each attempt's build
outcome; `fixer` is the awaited fix_build_errors call (none = it raised).
On timeout the loop breaks at once; exit 0 succeeds; at the last attempt
the loop just ends; exit codes at or above 128 (signal kills) break
without a fix call; otherwise the fixer replaces the files and the extra
deps grow by the returned deps, deduplicated (list(set(..)) modelled in
insertion order). -/
def build_retry_go (env : Nat → ExecOut)
    (fixer : Nat → List (Str × Str) → Str → Option (List (Str × Str) × List Str)) :
    Nat → Nat → List (Str × Str) → List Str → RetryResult
  | 0, _, files, deps => ⟨false, files, deps, []⟩
  | Nat.succ r, attempt, files, deps =>
    match env attempt with
    | ExecOut.timeout => ⟨false, files, deps, [BuildEv.build ExecOut.timeout]⟩
    | ExecOut.exited code out =>
      if code = 0 then ⟨true, files, deps, [BuildEv.build (ExecOut.exited code out)]⟩
      else
        let error_text := extract_error_text out
        if r = 0 then ⟨false, files, deps, [BuildEv.build (ExecOut.exited code out)]⟩
        else if 128 ≤ code then ⟨false, files, deps, [BuildEv.build (ExecOut.exited code out)]⟩
        else
          match fixer attempt files error_text with
          | none => ⟨false, files, deps,
              [BuildEv.build (ExecOut.exited code out), BuildEv.fix_call false]⟩
          | some (f', d') =>
            let rest := build_retry_go env fixer r (attempt + 1) f' (dedup_go [] (deps ++ d'))
            ⟨rest.build_ok, rest.files, rest.deps,
             BuildEv.build (ExecOut.exited code out) :: BuildEv.fix_call true :: rest.events⟩

/-- build_with_retry entry: attempts run 1 .. MAX_BUILD_ATTEMPTS. -/
def build_with_retry (env : Nat → ExecOut)
    (fixer : Nat → List (Str × Str) → Str → Option (List (Str × Str) × List Str))
    (files : List (Str × Str)) (deps : List Str) : RetryResult :=
  build_retry_go env fixer MAX_BUILD_ATTEMPTS 1 files deps

/-- Number of build invocations in a trace. -/
def count_builds (evs : List BuildEv) : Nat :=
  (evs.filter (fun e => match e with | BuildEv.build _ => true | _ => false)).length

/-- Number of fix calls in a trace. -/
def count_fix_calls (evs : List BuildEv) : Nat :=
  (evs.filter (fun e => match e with | BuildEv.fix_call _ => true | _ => false)).length

/-! ## ai.py — agent count -/

/-- Constant MAX_PARALLEL_AGENTS (ai.py line 19). -/
def MAX_PARALLEL_AGENTS : Nat := 5

/-- Embedding of _determine_agent_count (ai.py lines 789-796). -/
def determine_agent_count (num_screenshots : Nat) : Nat :=
  if num_screenshots ≤ 1 then 1
  else if num_screenshots ≤ 3 then 2
  else min 3 MAX_PARALLEL_AGENTS

/-! ## ai.py — multi-file output parsing

parse_multi_file_output (ai.py lines 734-784) extracts an optional
dependency-declaration line, then splits on file-boundary marker lines,
falling back to a single default file. The marker patterns are
`^//\s*===\s*DEPS:\s*(.+?)\s*===\s*$` and `^//\s*DEPS:\s*(.+)$` (and the
same two shapes with FILE:), all under re.MULTILINE.
-/

/-- Lazy group matcher for `(.+?)\s*===\s*$`: the shortest non-empty run of
non-newline characters after which `\s*===\s*$` matches; returns (group,
rest after the whole match). -/
def lazy_grp : Nat → Str → Str → Option (Str × Str)
  | 0, _, _ => none
  | Nat.succ fuel, acc, s =>
    match s with
    | [] => none
    | c :: rest =>
      if c == '\n' then none
      else
        match (isPfx (str "===") (wsDrop rest)).bind ws_dollar with
        | some rem => some (acc ++ [c], rem)
        | none => lazy_grp fuel (acc ++ [c]) rest

/-- Marker-line matcher for `^//\s*===\s*KW\s*(.+?)\s*===\s*$` at a line
start (KW is "DEPS:" or "FILE:"); the greedy `\s*` before the lazy group
backtracks from its maximal run. -/
def marker_line_at (kw : Str) (s : Str) : Option (Str × Str) :=
  (isPfx (str "//") s).bind fun s1 =>
  (isPfx (str "===") (wsDrop s1)).bind fun s2 =>
  (isPfx kw (wsDrop s2)).bind fun s3 =>
  first_some (ws_suffixes s3) (fun t => lazy_grp (t.length + 1) [] t)

/-- Marker-line matcher for the old style `^//\s*KW\s*(.+)$`: the greedy
group runs to the end of the line; the `\s*` before it backtracks from its
maximal run until a non-empty same-line group exists. -/
def plain_marker_at (kw : Str) (s : Str) : Option (Str × Str) :=
  (isPfx (str "//") s).bind fun s1 =>
  (isPfx kw (wsDrop s1)).bind fun s2 =>
  first_some (ws_suffixes s2) (fun t =>
    let line := t.takeWhile (fun c => c != '\n')
    if line.isEmpty then none else some (line, t.drop line.length))

/-- Splitting scanner for the FILE marker lines: the text before the first
match, and for each match its group paired with the text from its end to
the next match's start (re.finditer spans). -/
def split_files_scan (mAt : Str → Option (Str × Str)) : Nat → Bool → Str → Str × List (Str × Str)
  | 0, _, s => (s, [])
  | Nat.succ fuel, ls, s =>
    match s with
    | [] => ([], [])
    | c :: rest =>
      match (if ls then mAt s else none) with
      | some (g, rest') =>
        let (seg, ms) := split_files_scan mAt fuel (sub_scan.nl_last s rest') rest'
        ([], (g, seg) :: ms)
      | none =>
        let (seg, ms) := split_files_scan mAt fuel (c == '\n') rest
        (c :: seg, ms)

/-- Dependency tokens of a matched declaration group:
`[d.strip() for d in group.split(",") if d.strip()]`. -/
def split_deps_tokens (g : Str) : List Str :=
  ((splitChar ',' g).map pyStrip).filter (fun d => !d.isEmpty)

/-! ## ai.py — per-file cleaning (_clean_code and helpers, lines 599-730) -/

/-- The _LUCIDE_ICONS set (ai.py lines 599-631). -/
def lucide_icons : List Str :=
  [str "Star", str "ChevronDown", str "ChevronUp", str "ChevronRight", str "ChevronLeft",
   str "Menu", str "X", str "Search", str "ArrowRight", str "ArrowLeft", str "ExternalLink",
   str "Check", str "Copy", str "Eye", str "EyeOff", str "Heart", str "ThumbsUp", str "Share2",
   str "Github", str "Twitter", str "Linkedin", str "Facebook", str "Instagram", str "Youtube",
   str "Mail", str "Phone", str "MapPin", str "Calendar", str "Clock", str "User", str "Users",
   str "Settings", str "Home", str "FileText", str "Folder", str "Download", str "Upload",
   str "Plus", str "Minus", str "Edit", str "Trash2", str "Shield", str "Lock", str "Unlock",
   str "Globe", str "Zap", str "Award", str "TrendingUp", str "BarChart", str "PieChart",
   str "Code", str "Terminal", str "GitBranch", str "GitCommit", str "GitPullRequest",
   str "GitMerge", str "GitFork", str "BookOpen", str "Book", str "Bookmark", str "Tag",
   str "Hash", str "AtSign", str "Bell", str "AlertCircle", str "AlertTriangle", str "Info",
   str "HelpCircle", str "MessageCircle", str "MessageSquare", str "Send", str "Paperclip",
   str "Image", str "Camera", str "Video", str "Music", str "Headphones", str "Mic", str "Volume2",
   str "Play", str "Pause", str "SkipForward", str "SkipBack", str "Repeat", str "Shuffle",
   str "Maximize2", str "Minimize2", str "MoreHorizontal", str "MoreVertical", str "Grid",
   str "List", str "Layout", str "Sidebar", str "Columns", str "Layers", str "Box", str "Package",
   str "Cpu", str "Database", str "Server", str "Cloud", str "Wifi", str "Bluetooth",
   str "Monitor", str "Smartphone", str "Tablet", str "Watch", str "Printer", str "Speaker",
   str "Sun", str "Moon", str "CloudRain", str "Wind", str "Droplet", str "Thermometer",
   str "Rocket", str "Sparkles", str "Flame", str "Target", str "Crosshair", str "Navigation",
   str "Compass", str "Map", str "Flag", str "Anchor", str "Briefcase", str "DollarSign",
   str "CreditCard", str "ShoppingCart", str "ShoppingBag", str "Gift", str "Percent",
   str "Activity", str "Aperture", str "Battery", str "BatteryCharging", str "Feather",
   str "Filter", str "Key", str "Link", str "Loader", str "LogIn", str "LogOut", str "Power",
   str "RefreshCw", str "RotateCw", str "Save", str "Scissors", str "Slash", str "Tool",
   str "Type", str "Underline", str "Bold", str "Italic", str "AlignLeft", str "AlignCenter",
   str "AlignRight", str "AlignJustify", str "CircleDot", str "Circle", str "Square",
   str "Triangle", str "Hexagon", str "Octagon", str "Pentagon", str "Diamond",
   str "FileCode", str "FileCode2", str "Files", str "FolderOpen", str "FolderGit2",
   str "CheckCircle", str "CheckCircle2", str "XCircle", str "MinusCircle", str "PlusCircle",
   str "ArrowUpRight", str "ArrowDownRight", str "MoveRight", str "Lightbulb", str "Wand2"]

/-- Code-line starters of _strip_trailing_prose (ai.py line 658). -/
def code_starters : List Str :=
  [str "export", str "function", str "const", str "import", str "//", str "type ",
   str "interface ", str "enum ", str "class ", str "let ", str "var "]

/-- Structurally terminal closing-brace lines of _strip_trailing_prose. -/
def terminal_braces : List Str := [str "\x7d", str "\x7d;", str "\x7d);"]

/-- Index of the last line whose stripped text is a terminal closing brace. -/
def find_last_brace_idx (lines : List Str) : Option Nat :=
  match lines.reverse.findIdx? (fun l => terminal_braces.contains (pyStrip l)) with
  | some k => some (lines.length - 1 - k)
  | none => none

/-- Embedding of _strip_trailing_prose (ai.py lines 639-662). -/
def strip_trailing_prose (content : Str) : Str :=
  let lines := splitChar '\n' content
  match find_last_brace_idx lines with
  | none => content
  | some i =>
    let after := lines.drop (i + 1)
    let trailing := pyStrip (join_sep (str "\n") after)
    if trailing.isEmpty then content
    else
      let ftl :=
        match after.find? (fun l => !(pyStrip l).isEmpty) with
        | some l => pyStrip l
        | none => []
      if code_starters.any (fun st => st.isPrefixOf ftl) then content
      else join_sep (str "\n") (lines.take (i + 1))

/-- Opening-fence matcher (MULTILINE): "```" then the first matching
language tag of tsx, typescript, jsx, ts, javascript (or none), then the
greedy `\s*` (after which the optional `\n?` is always empty); the
replacement is empty. -/
def fence_open_at (s : Str) : Option (Str × Str) :=
  (isPfx (str "```") s).map fun s1 =>
    let s2 :=
      match first_some [str "tsx", str "typescript", str "jsx", str "ts", str "javascript"]
          (fun lang => isPfx lang s1) with
      | some r => r
      | none => s1
    ([], wsDrop s2)

/-- Closing-fence matcher for `\n?```\s*$` (MULTILINE): prefer consuming a
leading newline; the replacement is empty. -/
def fence_close_at (s : Str) : Option (Str × Str) :=
  let core := fun (t : Str) => (isPfx (str "```") t).bind ws_dollar
  match s with
  | '\n' :: rest =>
    match core rest with
    | some r => some ([], r)
    | none => (core s).map (fun r => ([], r))
  | _ => (core s).map (fun r => ([], r))

/-- Line-start code matcher of the preamble search
`^(?:"use client"|'use client'|import )`: payload is the suffix from the
match start. -/
def code_start_pats : List Str :=
  [str "\"use client\"", str "'use client'", str "import "]

/-- Matcher wrapper for the preamble search: succeeds with the whole suffix
when a code-start literal begins here. -/
def code_start_at (s : Str) : Option (Str × Str) :=
  if code_start_pats.any (fun p => p.isPrefixOf s) then some (s, s) else none

/-- Smart-quote normalisation of _clean_code: each curly quote becomes its
ASCII counterpart. -/
def smart_quote_fix (c : Char) : Char :=
  if c == '\u201c' || c == '\u201d' then '"'
  else if c == '\u2018' || c == '\u2019' then '\'' else c

/-- Invisible characters removed by _clean_code. -/
def invisible_chars : List Char := ['\u200b', '\u200c', '\u200d', '\ufeff', '\u00a0']

/-- JSX tag matcher of _fix_missing_imports:
`<([A-Z][a-zA-Z0-9]+)[\s/>]` — payload is the tag name. -/
def jsx_tag_at (s : Str) : Option (Str × Str) :=
  match s with
  | '<' :: c :: rest =>
    if c.isUpper then
      let run := rest.takeWhile Char.isAlphanum
      if run.isEmpty then none
      else
        match rest.drop run.length with
        | t :: rest2 =>
          if pyIsSpace t || t == '/' || t == '>' then some (c :: run, rest2) else none
        | [] => none
    else none
  | _ => none

/-- Brace-import matcher `import\s+\{([^}]+)\}\s+from\s+['"]([^'"]+)['"]`:
payload is the first group (the names between the braces). -/
def brace_import_at (s : Str) : Option (Str × Str) :=
  (isPfx (str "import") s).bind fun s1 =>
  (ws1 s1).bind fun s2 =>
  match s2 with
  | '\x7b' :: s3 =>
    let g := s3.takeWhile (fun c => c != '\x7d')
    if g.isEmpty then none
    else
      match s3.drop g.length with
      | '\x7d' :: s4 =>
        (ws1 s4).bind fun s5 =>
        (isPfx (str "from") s5).bind fun s6 =>
        (ws1 s6).bind fun s7 =>
        match s7 with
        | q :: s8 =>
          if q == '"' || q == '\'' then
            let m := s8.takeWhile (fun c => c != '"' && c != '\'')
            if m.isEmpty then none
            else
              match s8.drop m.length with
              | q2 :: s9 => if q2 == '"' || q2 == '\'' then some (g, s9) else none
              | [] => none
          else none
        | [] => none
      | _ => none
  | _ => none

/-- Default-import matcher `import\s+(\w+)\s+from\s+['"]`: payload is the
imported name. -/
def default_import_at (s : Str) : Option (Str × Str) :=
  (isPfx (str "import") s).bind fun s1 =>
  (ws1 s1).bind fun s2 =>
  let w := s2.takeWhile isWordChar
  if w.isEmpty then none
  else
    (ws1 (s2.drop w.length)).bind fun s3 =>
    (isPfx (str "from") s3).bind fun s4 =>
    (ws1 s4).bind fun s5 =>
    match s5 with
    | q :: s6 => if q == '"' || q == '\'' then some (w, s6) else none
    | [] => none

/-- First segment of Python s.split(pat): the text before the first
occurrence of pat (or all of s). -/
def take_until_sub (pat : Str) : Str → Str
  | [] => []
  | s@(c :: rest) => if pat.isPrefixOf s then [] else c :: take_until_sub pat rest

/-- The imported names a brace-import group contributes:
`n.strip().split(' as ')[0].strip()` for each comma part. -/
def brace_import_names (g : Str) : List Str :=
  (splitChar ',' g).map (fun n => pyStrip (take_until_sub (str " as ") (pyStrip n)))

/-- Lucide-import matcher
`(import\s+\{)([^}]+)(\}\s+from\s+['"]lucide-react['"];?)`:
payload is the three groups as matched. -/
def lucide_import_at (s : Str) : Option ((Str × Str × Str) × Str) :=
  (isPfx (str "import") s).bind fun s1 =>
  let ws := s1.takeWhile pyIsSpace
  if ws.isEmpty then none
  else
    match s1.drop ws.length with
    | '\x7b' :: s2 =>
      let g2 := s2.takeWhile (fun c => c != '\x7d')
      if g2.isEmpty then none
      else
        match s2.drop g2.length with
        | '\x7d' :: s3 =>
          let ws2 := s3.takeWhile pyIsSpace
          if ws2.isEmpty then none
          else
            match isPfx (str "from") (s3.drop ws2.length) with
            | some s4 =>
              let ws3 := s4.takeWhile pyIsSpace
              if ws3.isEmpty then none
              else
                match s4.drop ws3.length with
                | q :: s5 =>
                  if q == '"' || q == '\'' then
                    match isPfx (str "lucide-react") s5 with
                    | some (q2 :: s6) =>
                      if q2 == '"' || q2 == '\'' then
                        let g1 := str "import" ++ ws ++ ['\x7b']
                        let g3base := '\x7d' :: ws2 ++ str "from" ++ ws3 ++ [q] ++
                          str "lucide-react" ++ [q2]
                        match s6 with
                        | ';' :: s7 => some ((g1, g2, g3base ++ [';']), s7)
                        | _ => some ((g1, g2, g3base), s6)
                      else none
                    | _ => none
                  else none
                | [] => none
            | none => none
        | _ => none
    | _ => none

/-- Tail of the `("use client";?\s*\n)` pattern after the literal: the
optional semicolon (greedy, with backtracking) and the whitespace-newline
run; payload is the consumed tail text. -/
def use_client_tail (s1 : Str) : Option (Str × Str) :=
  match s1 with
  | ';' :: s2 =>
    match ws_then_nl s2 with
    | some cr => some (';' :: cr.1, cr.2)
    | none =>
      match ws_then_nl s1 with
      | some cr => some (cr.1, cr.2)
      | none => none
  | _ =>
    match ws_then_nl s1 with
    | some cr => some (cr.1, cr.2)
    | none => none

/-- Matcher for `("use client";?\s*\n)` (the anchor point where a missing
lucide import line is inserted): payload is the matched text itself. -/
def use_client_line_at (s : Str) : Option (Str × Str) :=
  (isPfx (str "\"use client\"") s).bind fun s1 =>
  (use_client_tail s1).map (fun cr => (str "\"use client\"" ++ cr.1, cr.2))

/-- Replace only the first match (re.sub count=1); the replacement is a
function of the matched payload. -/
def sub_first (mAt : Str → Option (Str × Str)) (repl : Str → Str) : Nat → Str → Str
  | 0, s => s
  | Nat.succ fuel, s =>
    match s with
    | [] => []
    | c :: rest =>
      match mAt s with
      | some (m, rest') => repl m ++ rest'
      | none => c :: sub_first mAt repl fuel rest

/-- Lexicographic order of Python string comparison (by code point). -/
def lex_le : Str → Str → Bool
  | [], _ => true
  | _ :: _, [] => false
  | a :: as_, b :: bs => if a == b then lex_le as_ bs else decide (a.val < b.val)

/-- Insertion into a sorted list. -/
def ins_sorted (x : Str) : List Str → List Str
  | [] => [x]
  | y :: ys => if lex_le x y then x :: y :: ys else y :: ins_sorted x ys

/-- Python sorted() for lists of strings. -/
def sort_lex : List Str → List Str
  | [] => []
  | x :: xs => ins_sorted x (sort_lex xs)

/-- Python rstrip(',') after strip: drop trailing commas. -/
def drop_trailing_commas (s : Str) : Str := (s.reverse.dropWhile (· == ',')).reverse

/-- Embedding of _fix_missing_imports (ai.py lines 700-729). -/
def fix_missing_imports (content : Str) : Str :=
  let jsx_tags := dedup_go [] (find_scan false jsx_tag_at (content.length + 1) true content)
  let imported :=
    ((find_scan false brace_import_at (content.length + 1) true content).map
        brace_import_names).flatten ++
      find_scan false default_import_at (content.length + 1) true content
  let missing := jsx_tags.filter (fun t => !imported.contains t && lucide_icons.contains t)
  if missing.isEmpty then content
  else
    let sorted := sort_lex missing
    match search_scan false lucide_import_at (content.length + 1) true content with
    | some (bef, (g1, g2, g3), aft) =>
      let existing := drop_trailing_commas (pyStrip g2)
      let new_imports := existing ++ str ", " ++ join_sep (str ", ") sorted
      bef ++ g1 ++ [' '] ++ new_imports ++ [' '] ++ g3 ++ aft
    | none =>
      let import_line :=
        str "import \x7b " ++ join_sep (str ", ") sorted ++ str " \x7d from \"lucide-react\";\n"
      sub_first use_client_line_at (fun m => m ++ import_line) (content.length + 1) content

/-- The "use client" injection step of _clean_code: prepend the directive
when neither quote style of it occurs in the content. -/
def ensure_use_client (c : Str) : Str :=
  if !has_sub (str "\"use client\"") c && !has_sub (str "'use client'") c then
    str "\"use client\";\n" ++ c
  else c

/-- The steps of _clean_code after its initial strip (ai.py lines 665-697)
up to the trailing-prose stripping: fence removal, preamble removal, quote
and invisible-character normalisation. -/
def clean_code_mid (c0 : Str) : Str :=
  let c := sub_scan true fence_open_at (c0.length + 1) true c0
  let c := sub_scan false fence_close_at (c.length + 1) true c
  let c := pyStrip c
  let c :=
    if code_start_pats.any (fun p => p.isPrefixOf c) then c
    else
      match search_scan true code_start_at (c.length + 1) true c with
      | some (_, t, _) => t
      | none => c
  let c := c.map smart_quote_fix
  let c := c.filter (fun ch => !invisible_chars.contains ch)
  let c := pyStrip c
  strip_trailing_prose c

/-- The remaining steps of _clean_code: the directive injection and the
lucide-import repair applied to the mid-pipeline output. -/
def clean_code_after (c0 : Str) : Str :=
  fix_missing_imports (ensure_use_client (clean_code_mid c0))

/-- Embedding of _clean_code (ai.py lines 665-697). -/
def clean_code (content : Str) : Str := clean_code_after (pyStrip content)

/-- A generated file: project-relative path and content. -/
structure GFile where
  path : Str
  content : Str
deriving DecidableEq

/-- Result shape of parse_multi_file_output. -/
structure ParseResult where
  files : List GFile
  deps : List Str
deriving DecidableEq

/-- Dependency-declaration extraction of parse_multi_file_output (ai.py
lines 741-756): the (deps, remaining text) pair after removing the
new-style line and, when that yielded no deps, the old-style line. -/
def parse_deps_stage (raw0 : Str) : List Str × Str :=
  let raw1 := pyStrip raw0
  let step2 :=
    match search_scan true (marker_line_at (str "DEPS:")) (raw1.length + 1) true raw1 with
    | some (bef, g, aft) => (split_deps_tokens g, pyStrip (bef ++ aft))
    | none => ([], raw1)
  let deps1 := step2.1
  let raw2 := step2.2
  match search_scan true (plain_marker_at (str "DEPS:")) (raw2.length + 1) true raw2 with
  | some (bef, g, aft) =>
    if deps1.isEmpty then (split_deps_tokens g, pyStrip (bef ++ aft)) else (deps1, raw2)
  | none => (deps1, raw2)

/-- Marker-match selection of parse_multi_file_output: the new-style FILE
matches, or the old-style ones when the new style found fewer than two and
the old style at least two. -/
def select_file_markers (raw3 : Str) : List (Str × Str) :=
  let msNew := (split_files_scan (marker_line_at (str "FILE:")) (raw3.length + 1) true raw3).2
  let msOld := (split_files_scan (plain_marker_at (str "FILE:")) (raw3.length + 1) true raw3).2
  if msNew.length < 2 then (if msOld.length ≥ 2 then msOld else msNew) else msNew

/-- File-boundary splitting of parse_multi_file_output (ai.py lines
758-784), applied to the deps-free remaining text. -/
def parse_split_stage (deps : List Str) (raw3 : Str) : ParseResult :=
  let ms := select_file_markers raw3
  if ms.length ≥ 2 then
    { files := ms.filterMap (fun gs =>
        let code := clean_code gs.2
        if code.isEmpty then none else some ⟨pyStrip gs.1, code⟩),
      deps := deps }
  else
    let content := clean_code raw3
    { files := if content.isEmpty then [] else [⟨str "app/page.tsx", content⟩],
      deps := deps }

/-- Embedding of parse_multi_file_output (ai.py lines 734-784). -/
def parse_multi_file_output (raw0 : Str) : ParseResult :=
  parse_split_stage (parse_deps_stage raw0).1 (parse_deps_stage raw0).2

/-! ## ai.py — stitching parallel agent results (_stitch_results, lines 821-866) -/

/-- One agent's parsed result ("falsy" results are modelled as none by the
caller). -/
structure AgentResult where
  files : List GFile
  deps : List Str
deriving DecidableEq

/-- Result of _stitch_results. -/
structure StitchResult where
  files : List GFile
  deps : List Str
  component_order : List (Str × Str × Nat)
deriving DecidableEq

/-- Python path.rsplit(".", 1) with the "tsx" default when no dot occurs:
(base, ext) split at the last dot. -/
def rsplit_dot (p : Str) : Str × Str :=
  if p.contains '.' then
    let rev := p.reverse
    let i := rev.findIdx (· == '.')
    ((rev.drop (i + 1)).reverse, (rev.take i).reverse)
  else (p, str "tsx")

/-- Python base.split("/")[-1]. -/
def last_seg_slash (base : Str) : Str :=
  match (splitChar '/' base).getLast? with
  | some l => l
  | none => []

/-- Matcher of the rename substitution
`export\s+default\s+function\s+OLD\b` (OLD is re.escape'd, so literal):
the replacement is "export default function NEW". -/
def export_default_at (old new : Str) (s : Str) : Option (Str × Str) :=
  (isPfx (str "export") s).bind fun s1 =>
  (ws1 s1).bind fun s2 =>
  (isPfx (str "default") s2).bind fun s3 =>
  (ws1 s3).bind fun s4 =>
  (isPfx (str "function") s4).bind fun s5 =>
  (ws1 s5).bind fun s6 =>
  (isPfx old s6).bind fun s7 =>
  let prev :=
    match old.getLast? with
    | some c => c
    | none => ' '
  let next_word :=
    match s7 with
    | c :: _ => isWordChar c
    | [] => false
  if (isWordChar prev) != next_word then
    some (str "export default function " ++ new, s7)
  else none

/-- The re.sub renaming a colliding component's default export. -/
def rename_default_export (old new content : Str) : Str :=
  sub_scan false (export_default_at old new) (content.length + 1) true content

/-- Accumulator state of the _stitch_results loops. -/
structure StitchSt where
  files : List GFile
  deps : List Str
  comp_order : List (Str × Str × Nat)
  seen : List (Str × Nat)
deriving DecidableEq

/-- Python set.add modelled in insertion order. -/
def set_add (l : List Str) (x : Str) : List Str := if l.contains x then l else l ++ [x]

/-- Body of the inner file loop of _stitch_results: skip app/page.tsx,
rename on a path collision (the renamed path is not recorded as seen),
record the component order for top-level components/ files. -/
def stitch_one_file (agent_idx : Nat) (st : StitchSt) (f : GFile) : StitchSt :=
  if f.path = str "app/page.tsx" then st
  else
    let hit := (st.seen.map Prod.fst).contains f.path
    let f' :=
      if hit then
        let be := rsplit_dot f.path
        let new_path := be.1 ++ natStr (agent_idx + 1) ++ '.' :: be.2
        let old_name := last_seg_slash be.1
        let new_name := old_name ++ natStr (agent_idx + 1)
        GFile.mk new_path (rename_default_export old_name new_name f.content)
      else f
    let seen' := if hit then st.seen else st.seen ++ [(f.path, agent_idx)]
    let path := f'.path
    let comp :=
      if (str "components/").isPrefixOf path && (path.filter (· == '/')).length = 1 then
        let nm := py_replace (py_replace (py_replace path (str "components/") [])
          (str ".tsx") []) (str ".jsx") []
        st.comp_order ++ [(nm, str "@/components/" ++ nm, agent_idx + 1)]
      else st.comp_order
    { files := st.files ++ [f'], deps := st.deps, comp_order := comp, seen := seen' }

/-- Body of the outer agent loop of _stitch_results. -/
def stitch_agent (agent_idx : Nat) (st : StitchSt) (r : Option AgentResult) : StitchSt :=
  match r with
  | none => st
  | some res =>
    let st1 := res.files.foldl (stitch_one_file agent_idx) st
    { st1 with deps := res.deps.foldl set_add st1.deps }

/-- The enumerate over agent results. -/
def stitch_go (idx : Nat) (st : StitchSt) : List (Option AgentResult) → StitchSt
  | [] => st
  | r :: rs => stitch_go (idx + 1) (stitch_agent idx st r) rs

/-- Embedding of _stitch_results (ai.py lines 821-866). -/
def stitch_results (agent_results : List (Option AgentResult)) : StitchResult :=
  let st := stitch_go 0 ⟨[], [], [], []⟩ agent_results
  ⟨st.files, st.deps, st.comp_order⟩

/-! ## ai.py — fix_build_errors (lines 1370-1408) and fix_component (1322-1365) -/

/-- Matcher of the failing-file pattern
`[./]*((?:src/|app/|components/)[\w/.-]+\.tsx)`: payload is the group. -/
def failing_file_at (s : Str) : Option (Str × Str) :=
  let t := s.dropWhile (fun c => c == '.' || c == '/')
  match first_some [str "src/", str "app/", str "components/"] (fun lit => (isPfx lit t).map (lit, ·)) with
  | some (lit, t1) =>
    let run := t1.takeWhile (fun c => isWordChar c || c == '/' || c == '.' || c == '-')
    match largest_tsx_cut t1 run.length with
    | some L => some (lit ++ t1.take (L + 4), t1.drop (L + 4))
    | none => none
  | none => none
where
  /-- Greedy backtracking of `[\w/.-]+` against the trailing literal
  `\.tsx`: the largest cut (at least 1) where ".tsx" follows. -/
  largest_tsx_cut (t1 : Str) : Nat → Option Nat
    | 0 => none
    | Nat.succ L => if (str ".tsx").isPrefixOf (t1.drop (L + 1)) then some (L + 1)
        else largest_tsx_cut t1 L

/-- The failing-file identification loop of fix_build_errors: the first
line of the error text with a pattern match yields the group. -/
def find_failing_file (error_text : Str) : Option Str :=
  (py_splitlines (error_text.length + 1) error_text).findSome? (fun line =>
    match search_scan false failing_file_at (line.length + 1) true line with
    | some (_, g, _) => some g
    | none => none)

/-- The matched-key loop of fix_build_errors: the first generated-files key
equal to, ending with, or ended by the failing file. -/
def match_generated_key (files : List (Str × Str)) (ff : Str) : Option Str :=
  (files.map Prod.fst).find? (fun k => k == ff || ff.isSuffixOf k || k.isSuffixOf ff)

/-- Content produced by fix_component for one file: the model's raw reply
cleaned, or the original content when the reply is empty (ai.py line 1364).
`llm_raw` stands for the single model call's reply text. -/
def fix_component_content (llm_raw file_content : Str) : Str :=
  if llm_raw.isEmpty then file_content else clean_code llm_raw

/-- Embedding of fix_build_errors (ai.py lines 1370-1408). The
generated-files dict is an insertion-ordered association list; the matched
entry's value is replaced, all else is returned unchanged, and the
extra-deps component of the result is always empty. -/
def fix_build_errors (llm_raw : Str) (generated_files : List (Str × Str))
    (error_text : Str) : List (Str × Str) × List Str :=
  match (find_failing_file error_text).bind (match_generated_key generated_files) with
  | some k =>
    let orig :=
      match generated_files.lookup k with
      | some v => v
      | none => []
    let fixed := fix_component_content llm_raw orig
    (generated_files.map (fun pc => if pc.1 = k then (pc.1, fixed) else pc), [])
  | none => (generated_files, [])

/-! ## scraper.py — _clean_html (lines 21-74; clone.py lines 107-160 hold
the identical function, so one embedding covers both) -/

/-- Case-sensitive first occurrence of a pattern: (text up to and including
the pattern, rest after it). -/
def find_through (pat : Str) : Nat → Str → Option (Str × Str)
  | 0, _ => none
  | Nat.succ fuel, s =>
    match s with
    | [] => none
    | c :: rest =>
      match isPfx pat s with
      | some r => some (s.take pat.length, r)
      | none =>
        match find_through pat fuel rest with
        | some (k, r) => some (c :: k, r)
        | none => none

/-- Case-insensitive first occurrence of a pattern, keeping the original
characters: (text up to and including the pattern as written, rest). -/
def find_ci_through (pat : Str) : Nat → Str → Option (Str × Str)
  | 0, _ => none
  | Nat.succ fuel, s =>
    match s with
    | [] => none
    | c :: rest =>
      match ci_pfx pat s with
      | some r => some (s.take pat.length, r)
      | none =>
        match find_ci_through pat fuel rest with
        | some (k, r) => some (c :: k, r)
        | none => none

/-- Matcher of the path-data truncation `(\s+d="[^"]{500})[^"]*"` with
replacement `\1..."`: exactly 500 non-quote characters are kept and the
rest of the attribute value is dropped. -/
def trunc_at (s : Str) : Option (Str × Str) :=
  let run := s.takeWhile pyIsSpace
  if run.isEmpty then none
  else
    match isPfx (str "d=\"") (s.drop run.length) with
    | some t =>
      let chunk := t.take 500
      if chunk.length = 500 && chunk.all (fun c => c != '"') then
        let t2 := t.drop 500
        let extra := t2.takeWhile (fun c => c != '"')
        match t2.drop extra.length with
        | '"' :: rest => some (run ++ str "d=\"" ++ chunk ++ str "...\"", rest)
        | _ => none
      else none
    | none => none

/-- The per-SVG truncation sub of _stash_svg. -/
def trunc_svg (svg : Str) : Str := sub_scan false trunc_at (svg.length + 1) true svg

/-- Placeholder comment text for the i-th stashed SVG. -/
def svg_placeholder (i : Nat) : Str := str "<!--SVG_PLACEHOLDER_" ++ natStr i ++ str "-->"

/-- The SVG stashing sub `re.sub(r"<svg[\s\S]*?</svg>", _stash_svg, html,
flags=re.IGNORECASE)`: each lazy svg block (as written) is truncated,
appended to the accumulator, and replaced by its numbered placeholder. -/
def svg_stash_go : Nat → Str → List Str → Str × List Str
  | 0, s, acc => (s, acc)
  | Nat.succ fuel, s, acc =>
    match s with
    | [] => ([], acc)
    | c :: rest =>
      match ci_pfx (str "<svg") s with
      | some after =>
        match find_ci_through (str "</svg>") (after.length + 1) after with
        | some (mid, rem) =>
          let svg := trunc_svg (s.take 4 ++ mid)
          let out := svg_stash_go fuel rem (acc ++ [svg])
          (svg_placeholder acc.length ++ out.1, out.2)
        | none =>
          let out := svg_stash_go fuel rest acc
          (c :: out.1, out.2)
      | none =>
        let out := svg_stash_go fuel rest acc
        (c :: out.1, out.2)

/-- Matcher removing one lazy tag block `<TAG[\s\S]*?</TAG>` (IGNORECASE). -/
def block_ci_at (openPat closePat : Str) (s : Str) : Option (Str × Str) :=
  (ci_pfx openPat s).bind fun after =>
  (find_ci_through closePat (after.length + 1) after).map (fun kr => ([], kr.2))

/-- Matcher removing one HTML comment `<!--(?!SVG_PLACEHOLDER_)\s*[\s\S]*?-->`:
the negative lookahead protects the stash placeholders; the match runs to
the first closing arrow. -/
def comment_at (s : Str) : Option (Str × Str) :=
  (isPfx (str "<!--") s).bind fun after =>
  if (str "SVG_PLACEHOLDER_").isPrefixOf after then none
  else (find_through (str "-->") (after.length + 1) after).map (fun kr => ([], kr.2))

/-- Class of `[\w-]`. -/
def w_dash_char (c : Char) : Bool := isWordChar c || c == '-'

/-- Matcher removing one attribute `\s+LIT<cls>+=<q>[^<q>]*<q>` (the data-*,
on* and aria-* attribute subs of _clean_html). -/
def attr_sub_at (lit : Str) (cls : Char → Bool) (q : Char) (s : Str) : Option (Str × Str) :=
  let run := s.takeWhile pyIsSpace
  if run.isEmpty then none
  else
    (isPfx lit (s.drop run.length)).bind fun t =>
    let nm := t.takeWhile cls
    if nm.isEmpty then none
    else
      match t.drop nm.length with
      | e :: q1 :: t2 =>
        if e == '=' && q1 == q then
          let v := t2.takeWhile (fun c => c != q)
          match t2.drop v.length with
          | q2 :: rest => if q2 == q then some ([], rest) else none
          | [] => none
        else none
      | _ => none

/-- Matcher of the blank-line collapse `\n\s*\n+` with replacement "\n":
a newline, then greedy whitespace through its last newline. -/
def blank_lines_at (s : Str) : Option (Str × Str) :=
  match s with
  | '\n' :: rest =>
    let run := rest.takeWhile pyIsSpace
    match last_nl_idx run with
    | some j => some (str "\n", rest.drop (j + 1))
    | none => none
  | _ => none

/-- Matcher of the space collapse `re.sub(r"  +", " ", ...)`: two or more
spaces become one. -/
def spaces_at (s : Str) : Option (Str × Str) :=
  match s with
  | ' ' :: ' ' :: _ => some ([' '], s.dropWhile (· == ' '))
  | _ => none

/-- Restoration loop: each placeholder is replaced (str.replace, all
occurrences) by its stashed SVG, in index order. -/
def restore_svgs (i : Nat) (svgs : List Str) (c : Str) : Str :=
  match svgs with
  | [] => c
  | svg :: rest => restore_svgs (i + 1) rest (py_replace c (svg_placeholder i) svg)

/-- The removal and collapsing passes of _clean_html between the SVG stash
and the SVG restoration (steps 2 to 6 of its docstring). -/
def clean_html_passes (c0 : Str) : Str :=
  let c := sub_scan false (block_ci_at (str "<script") (str "</script>")) (c0.length + 1) true c0
  let c := sub_scan false (block_ci_at (str "<style") (str "</style>")) (c.length + 1) true c
  let c := sub_scan false (block_ci_at (str "<noscript") (str "</noscript>")) (c.length + 1) true c
  let c := sub_scan false comment_at (c.length + 1) true c
  let c := sub_scan false (attr_sub_at (str "data-") w_dash_char '"') (c.length + 1) true c
  let c := sub_scan false (attr_sub_at (str "data-") w_dash_char '\'') (c.length + 1) true c
  let c := sub_scan false (attr_sub_at (str "on") isWordChar '"') (c.length + 1) true c
  let c := sub_scan false (attr_sub_at (str "aria-") w_dash_char '"') (c.length + 1) true c
  let c := sub_scan false blank_lines_at (c.length + 1) true c
  sub_scan false spaces_at (c.length + 1) true c

/-- Embedding of _clean_html (scraper.py lines 21-74 and clone.py lines
107-160): stash SVGs (truncating long path data), remove script, style
and noscript blocks, comments, data-*, on* and aria-* attributes, collapse
whitespace, restore the SVGs, and strip. -/
def clean_html (html : Str) : Str :=
  let stash := svg_stash_go (html.length + 1) html []
  pyStrip (restore_svgs 0 stash.2 (clean_html_passes stash.1))

set_option maxRecDepth 40000

/-! ## Helper lemmas -/

theorem dep_first_char_safe (c : Char) (h : dep_first_char c = true) :
    claim_safe_char c = true := by
  simp only [dep_first_char, Bool.or_eq_true, beq_iff_eq] at h
  rcases h with h | h <;> simp [claim_safe_char, h]

theorem dep_rest_char_safe (c : Char) (h : dep_rest_char c = true) :
    claim_safe_char c = true := by
  simp only [dep_rest_char, dep_rest_char_w, isWordChar, Bool.or_eq_true, beq_iff_eq] at h
  simp only [claim_safe_char, Bool.or_eq_true, beq_iff_eq]
  tauto

theorem dep_rest_char_w_ascii (W : Char → Bool) (hW : ascii_faithful W) (c : Char)
    (hc : c.toNat < 128) (h : dep_rest_char_w W c = true) :
    dep_rest_char c = true := by
  simp only [dep_rest_char, dep_rest_char_w, hW c hc] at h ⊢
  exact h

theorem word_with_eacute_faithful : ascii_faithful word_with_eacute := by
  intro c hc
  simp only [word_with_eacute]
  by_cases he : c = '\u00e9'
  · subst he
    exact absurd hc (by decide)
  · rw [show (c == '\u00e9') = false by simpa using he, Bool.or_false]

theorem count_builds_cons_build (o : ExecOut) (l : List BuildEv) :
    count_builds (BuildEv.build o :: l) = count_builds l + 1 := rfl

theorem count_builds_cons_fix (b : Bool) (l : List BuildEv) :
    count_builds (BuildEv.fix_call b :: l) = count_builds l := rfl

theorem build_retry_go_fix_step (env : Nat → ExecOut)
    (fixer : Nat → List (Str × Str) → Str → Option (List (Str × Str) × List Str))
    (r a : Nat) (files : List (Str × Str)) (deps : List Str) (c : Nat) (out : Str)
    (f' : List (Str × Str)) (d' : List Str)
    (he : env a = ExecOut.exited c out) (hc0 : ¬ c = 0) (hr : ¬ r = 0) (hc128 : ¬ 128 ≤ c)
    (hf : fixer a files (extract_error_text out) = some (f', d')) :
    build_retry_go env fixer (Nat.succ r) a files deps =
      { build_ok := (build_retry_go env fixer r (a + 1) f' (dedup_go [] (deps ++ d'))).build_ok,
        files := (build_retry_go env fixer r (a + 1) f' (dedup_go [] (deps ++ d'))).files,
        deps := (build_retry_go env fixer r (a + 1) f' (dedup_go [] (deps ++ d'))).deps,
        events := BuildEv.build (ExecOut.exited c out) :: BuildEv.fix_call true ::
          (build_retry_go env fixer r (a + 1) f' (dedup_go [] (deps ++ d'))).events } := by
  simp [build_retry_go, he, hf, hc0, hr, hc128]

theorem build_retry_go_last_fail (env : Nat → ExecOut)
    (fixer : Nat → List (Str × Str) → Str → Option (List (Str × Str) × List Str))
    (a : Nat) (files : List (Str × Str)) (deps : List Str) (c : Nat) (out : Str)
    (he : env a = ExecOut.exited c out) (hc0 : ¬ c = 0) :
    build_retry_go env fixer 1 a files deps =
      ⟨false, files, deps, [BuildEv.build (ExecOut.exited c out)]⟩ := by
  simp [build_retry_go, he, hc0]

theorem retry_events_timeout_last (env : Nat → ExecOut)
    (fixer : Nat → List (Str × Str) → Str → Option (List (Str × Str) × List Str)) :
    ∀ (r a : Nat) (files : List (Str × Str)) (deps : List Str) (pre post : List BuildEv),
    (build_retry_go env fixer r a files deps).events =
      pre ++ BuildEv.build ExecOut.timeout :: post →
    post = [] := by
  intro r
  induction r with
  | zero =>
    intro a files deps pre post h
    simp [build_retry_go] at h
  | succ r ih =>
    intro a files deps pre post h
    cases henv : env a with
    | timeout =>
      simp only [build_retry_go, henv] at h
      rcases pre with _ | ⟨x, pre'⟩
      · simpa using (List.cons_eq_cons.mp h).2.symm
      · rcases List.cons_eq_cons.mp h with ⟨_, h2⟩
        exact absurd h2.symm (by simp)
    | exited c out =>
      simp only [build_retry_go, henv] at h
      by_cases hc0 : c = 0
      · rw [if_pos hc0] at h
        rcases pre with _ | ⟨x, pre'⟩
        · exact absurd (List.cons_eq_cons.mp h).1 (by simp)
        · rcases List.cons_eq_cons.mp h with ⟨_, h2⟩
          exact absurd h2.symm (by simp)
      · rw [if_neg hc0] at h
        by_cases hr : r = 0
        · rw [if_pos hr] at h
          rcases pre with _ | ⟨x, pre'⟩
          · exact absurd (List.cons_eq_cons.mp h).1 (by simp)
          · rcases List.cons_eq_cons.mp h with ⟨_, h2⟩
            exact absurd h2.symm (by simp)
        · rw [if_neg hr] at h
          by_cases h128 : 128 ≤ c
          · rw [if_pos h128] at h
            rcases pre with _ | ⟨x, pre'⟩
            · exact absurd (List.cons_eq_cons.mp h).1 (by simp)
            · rcases List.cons_eq_cons.mp h with ⟨_, h2⟩
              exact absurd h2.symm (by simp)
          · rw [if_neg h128] at h
            cases hfix : fixer a files (extract_error_text out) with
            | none =>
              rw [hfix] at h
              rcases pre with _ | ⟨x, _ | ⟨y, pre'⟩⟩
              · exact absurd (List.cons_eq_cons.mp h).1 (by simp)
              · rcases List.cons_eq_cons.mp h with ⟨_, h2⟩
                exact absurd (List.cons_eq_cons.mp h2).1 (by simp)
              · rcases List.cons_eq_cons.mp h with ⟨_, h2⟩
                rcases List.cons_eq_cons.mp h2 with ⟨_, h3⟩
                exact absurd h3.symm (by simp)
            | some fd =>
              rw [hfix] at h
              rcases pre with _ | ⟨x, _ | ⟨y, pre'⟩⟩
              · exact absurd (List.cons_eq_cons.mp h).1 (by simp)
              · rcases List.cons_eq_cons.mp h with ⟨_, h2⟩
                exact absurd (List.cons_eq_cons.mp h2).1 (by simp)
              · rcases List.cons_eq_cons.mp h with ⟨_, h2⟩
                rcases List.cons_eq_cons.mp h2 with ⟨_, h3⟩
                exact ih (a + 1) fd.1 (dedup_go [] (deps ++ fd.2)) pre' post h3

/-! ## Claim theorems -/

/-- C1 (corrected): two failures of the stated invariant. The filter
pattern's un-flagged dollar also matches just before one newline that ends
the string, so the dependency "react\n" is kept and interpolated although
the newline is outside the stated safe set; and the pattern's \w is the
full Unicode word class, so under an ASCII-faithful word class that accepts
the letter U+00E9 — as the Unicode class does — the dependency "caf\u00e9" is
kept and interpolated although that letter is outside the stated set. -/
theorem C1_dep_filter_counterexample :
    (safe_deps_of [str "react\n"] = [str "react\n"] ∧
      '\n' ∈ str "react\n" ∧ claim_safe_char '\n' = false) ∧
    (ascii_faithful word_with_eacute ∧ word_with_eacute '\u00e9' = true ∧
      safe_deps_of_w word_with_eacute [str "caf\u00e9"] = [str "caf\u00e9"] ∧
      '\u00e9' ∈ str "caf\u00e9" ∧ claim_safe_char '\u00e9' = false) :=
  ⟨⟨by decide, by decide, by decide⟩,
   ⟨word_with_eacute_faithful, by decide, by decide, by decide, by decide⟩⟩

/-- C1 (amended): for every ASCII-faithful model of the pattern's Unicode
word class, every dependency string the filter keeps (and so every string
interpolated into the npm install command) is a non-empty body followed by
at most one trailing newline, where every ASCII character of the body lies
in the stated safe set; a dependency with an ASCII character outside the
safe set anywhere but as one final newline is silently dropped, while
non-ASCII word characters can pass the filter. -/
theorem C1_dep_filter_amended :
    ∀ (W : Char → Bool), ascii_faithful W →
    ∀ (extra_deps : List Str) (d : Str), d ∈ safe_deps_of_w W extra_deps →
    ∃ body : Str, (d = body ∨ d = body ++ ['\n']) ∧ body ≠ [] ∧
      ∀ c ∈ body, c.toNat < 128 → claim_safe_char c = true := by
  intro W hW extra_deps d hd
  have hsafe : dep_is_safe_w W d = true := List.of_mem_filter hd
  match d with
  | [] => simp [dep_is_safe_w] at hsafe
  | c :: rest =>
    simp only [dep_is_safe_w, Bool.and_eq_true] at hsafe
    obtain ⟨h1, h2⟩ := hsafe
    refine ⟨c :: rest.takeWhile (dep_rest_char_w W), ?_, by simp, ?_⟩
    · have hsplit : rest.takeWhile (dep_rest_char_w W) ++
          rest.dropWhile (dep_rest_char_w W) = rest :=
        List.takeWhile_append_dropWhile (dep_rest_char_w W) rest
      simp only [Bool.or_eq_true, List.isEmpty_iff, beq_iff_eq] at h2
      rcases h2 with h2 | h2
      · left
        rw [h2, List.append_nil] at hsplit
        rw [hsplit]
      · right
        rw [h2] at hsplit
        conv_lhs => rw [← hsplit]
        simp
    · intro x hx hxa
      rcases List.mem_cons.mp hx with hx | hx
      · exact hx ▸ dep_first_char_safe c h1
      · exact dep_rest_char_safe x
          (dep_rest_char_w_ascii W hW x hxa (List.mem_takeWhile_imp hx))

/-- C1 witness: the theorem applied at the ASCII word class (which is
ASCII-faithful) and the concrete dependency list ["react"]. -/
theorem C1_dep_filter_witness :
    ∃ body : Str, (str "react" = body ∨ str "react" = body ++ ['\n']) ∧ body ≠ [] ∧
      ∀ c ∈ body, c.toNat < 128 → claim_safe_char c = true :=
  C1_dep_filter_amended isWordChar (fun _ _ => rfl) [str "react"] (str "react") (by decide)

/-- C2 (corrected): when the build command always exits with a signal-kill
code (here 137, out of memory), the loop breaks after a single build
invocation instead of performing all three attempts, and still returns
success = false. -/
theorem C2_retry_bound_counterexample :
    count_builds (build_with_retry (fun _ => ExecOut.exited 137 (str "Killed"))
      (fun _ f _ => some (f, [])) [] []).events = 1 ∧
    (build_with_retry (fun _ => ExecOut.exited 137 (str "Killed"))
      (fun _ f _ => some (f, [])) [] []).build_ok = false := by
  constructor <;> rfl

/-- C2 (amended): a build environment whose build command always returns an
exit code in 1..127 (an ordinary compile failure, not a timeout and not a
signal kill), with every AI-fix call returning, causes exactly
MAX_BUILD_ATTEMPTS = 3 build invocations and a final success = false. -/
theorem C2_retry_bound_amended :
    ∀ (env : Nat → ExecOut)
      (fixer : Nat → List (Str × Str) → Str → Option (List (Str × Str) × List Str))
      (files : List (Str × Str)) (deps : List Str),
    (∀ k, 1 ≤ k → k ≤ MAX_BUILD_ATTEMPTS →
      ∃ c out, env k = ExecOut.exited c out ∧ 1 ≤ c ∧ c ≤ 127) →
    (∀ k f e, (fixer k f e).isSome = true) →
    count_builds (build_with_retry env fixer files deps).events = MAX_BUILD_ATTEMPTS ∧
    (build_with_retry env fixer files deps).build_ok = false := by
  intro env fixer files deps henv hfix
  obtain ⟨c1, o1, he1, hc1, hc1'⟩ := henv 1 (by decide) (by decide)
  obtain ⟨c2, o2, he2, hc2, hc2'⟩ := henv 2 (by decide) (by decide)
  obtain ⟨c3, o3, he3, hc3, hc3'⟩ := henv 3 (by decide) (by decide)
  obtain ⟨fd1, hf1⟩ := Option.isSome_iff_exists.mp (hfix 1 files (extract_error_text o1))
  obtain ⟨fd2, hf2⟩ :=
    Option.isSome_iff_exists.mp (hfix 2 fd1.1 (extract_error_text o2))
  have step1 := build_retry_go_fix_step env fixer 2 1 files deps c1 o1 fd1.1 fd1.2
    he1 (by omega) (by omega) (by omega) (by rw [hf1])
  have step2 := build_retry_go_fix_step env fixer 1 2 fd1.1 (dedup_go [] (deps ++ fd1.2))
    c2 o2 fd2.1 fd2.2 he2 (by omega) (by omega) (by omega) (by rw [hf2])
  have step3 := build_retry_go_last_fail env fixer 3 fd2.1
    (dedup_go [] (dedup_go [] (deps ++ fd1.2) ++ fd2.2)) c3 o3 he3 (by omega)
  have h12 : build_with_retry env fixer files deps =
      { build_ok := false, files := fd2.1,
        deps := dedup_go [] (dedup_go [] (deps ++ fd1.2) ++ fd2.2),
        events := BuildEv.build (ExecOut.exited c1 o1) :: BuildEv.fix_call true ::
          BuildEv.build (ExecOut.exited c2 o2) :: BuildEv.fix_call true ::
          [BuildEv.build (ExecOut.exited c3 o3)] } := by
    show build_retry_go env fixer MAX_BUILD_ATTEMPTS 1 files deps = _
    rw [show MAX_BUILD_ATTEMPTS = Nat.succ 2 from rfl, step1,
      show (2 : Nat) = Nat.succ 1 from rfl, step2, step3]
  rw [h12]
  constructor
  · rfl
  · rfl

/-- C2 witness: the amended theorem applied to the environment that always
exits 1 and the fixer that returns the files unchanged. -/
theorem C2_retry_bound_witness :
    count_builds (build_with_retry (fun _ => ExecOut.exited 1 (str "err"))
      (fun _ f _ => some (f, [])) [] []).events = MAX_BUILD_ATTEMPTS ∧
    (build_with_retry (fun _ => ExecOut.exited 1 (str "err"))
      (fun _ f _ => some (f, [])) [] []).build_ok = false :=
  C2_retry_bound_amended (fun _ => ExecOut.exited 1 (str "err")) (fun _ f _ => some (f, []))
    [] [] (fun k _ _ => ⟨1, str "err", rfl, by omega, by omega⟩) (fun _ _ _ => rfl)

/-- C3 (confirmed): in every run of build_with_retry, a build invocation
that hits the hard timeout is the last event of the run: the loop exits
immediately and no AI-fix call (nor any further build) happens after it. -/
theorem C3_timeout_short_circuit :
    ∀ (env : Nat → ExecOut)
      (fixer : Nat → List (Str × Str) → Str → Option (List (Str × Str) × List Str))
      (files : List (Str × Str)) (deps : List Str) (pre post : List BuildEv),
    (build_with_retry env fixer files deps).events =
      pre ++ BuildEv.build ExecOut.timeout :: post →
    post = [] := by
  intro env fixer files deps pre post h
  exact retry_events_timeout_last env fixer MAX_BUILD_ATTEMPTS 1 files deps pre post h

/-- C3 witness: the theorem applied to the environment that times out on
the first attempt, whose whole trace is that one timeout event. -/
theorem C3_timeout_short_circuit_witness :
    (build_with_retry (fun _ => ExecOut.timeout) (fun _ f _ => some (f, [])) [] []).events =
      [BuildEv.build ExecOut.timeout] ∧ ([] : List BuildEv) = [] :=
  ⟨rfl, C3_timeout_short_circuit (fun _ => ExecOut.timeout) (fun _ f _ => some (f, []))
    [] [] [] [] rfl⟩

/-- C4 (confirmed): the agent count is 1 for one screenshot, 2 for two or
three, 3 above three, never exceeds MAX_PARALLEL_AGENTS, and in particular
maps 1, 3, 10 to 1, 2, 3. -/
theorem C4_agent_count :
    (∀ n, n = 1 → determine_agent_count n = 1) ∧
    (∀ n, n = 2 ∨ n = 3 → determine_agent_count n = 2) ∧
    (∀ n, 3 < n → determine_agent_count n = 3) ∧
    (∀ n, determine_agent_count n ≤ MAX_PARALLEL_AGENTS) ∧
    determine_agent_count 1 = 1 ∧ determine_agent_count 3 = 2 ∧
    determine_agent_count 10 = 3 := by
  refine ⟨?_, ?_, ?_, ?_, by decide, by decide, by decide⟩
  · intro n hn
    subst hn
    decide
  · intro n hn
    rcases hn with hn | hn <;> (subst hn; decide)
  · intro n hn
    have h1 : ¬ n ≤ 1 := by omega
    have h3 : ¬ n ≤ 3 := by omega
    simp [determine_agent_count, h1, h3, MAX_PARALLEL_AGENTS]
  · intro n
    by_cases h1 : n ≤ 1
    · simp [determine_agent_count, h1, MAX_PARALLEL_AGENTS]
    · by_cases h3 : n ≤ 3
      · simp [determine_agent_count, h1, h3, MAX_PARALLEL_AGENTS]
      · simp [determine_agent_count, h1, h3, MAX_PARALLEL_AGENTS]

theorem rsplit_dot_length_ne (p : Str) :
    ((rsplit_dot p).1 ++ str "2" ++ '.' :: (rsplit_dot p).2).length ≠ p.length := by
  have l2 : (str "2").length = 1 := by decide
  have l3 : (str "tsx").length = 3 := by decide
  by_cases h : p.contains '.'
  · have hmem : '.' ∈ p.reverse := by
      simp only [List.mem_reverse]
      simpa using h
    have hidx : p.reverse.findIdx (· == '.') < p.length := by
      simpa using List.findIdx_lt_length_of_exists ⟨'.', hmem, by simp⟩
    simp only [rsplit_dot, if_pos h, List.length_append, List.length_cons,
      List.length_reverse, List.length_drop, List.length_take, l2]
    omega
  · simp only [rsplit_dot, if_neg h, List.length_append, List.length_cons, l2, l3]
    omega

/-- C5 (confirmed): when two distinct agents each emit a file at the same
path (other than the root page), stitching keeps the first file unchanged
and gives the second a distinct path carrying the agent's ordinal suffix
"2", with its content rewritten by the text substitution that renames the
default-export identifier to the suffixed name. -/
theorem C5_collision_rename :
    ∀ (p c1 c2 : Str) (d1 d2 : List Str), p ≠ str "app/page.tsx" →
    ∃ p2, (stitch_results [some ⟨[⟨p, c1⟩], d1⟩, some ⟨[⟨p, c2⟩], d2⟩]).files =
        [⟨p, c1⟩, ⟨p2, rename_default_export (last_seg_slash (rsplit_dot p).1)
            (last_seg_slash (rsplit_dot p).1 ++ str "2") c2⟩] ∧
      p2 = (rsplit_dot p).1 ++ str "2" ++ '.' :: (rsplit_dot p).2 ∧ p2 ≠ p := by
  intro p c1 c2 d1 d2 hp
  refine ⟨(rsplit_dot p).1 ++ str "2" ++ '.' :: (rsplit_dot p).2, ?_, rfl, ?_⟩
  · simp only [stitch_results, stitch_go, stitch_agent, List.foldl, stitch_one_file,
      if_neg hp]
    simp [natStr, Nat.toDigits, Nat.toDigitsCore, str]
    refine ⟨by decide, ?_⟩
    rw [show Nat.digitChar 2 = '2' from by decide]
  · intro he
    exact rsplit_dot_length_ne p (by rw [he])

/-- C5 witness: two agents both emitting components/Navbar.tsx. -/
theorem C5_collision_rename_witness :
    ∃ p2, (stitch_results
        [some ⟨[⟨str "components/Navbar.tsx",
            str "export default function Navbar() \x7b return 1; \x7d"⟩], []⟩,
         some ⟨[⟨str "components/Navbar.tsx",
            str "export default function Navbar() \x7b return 2; \x7d"⟩], []⟩]).files =
        [⟨str "components/Navbar.tsx", str "export default function Navbar() \x7b return 1; \x7d"⟩,
         ⟨p2, rename_default_export
            (last_seg_slash (rsplit_dot (str "components/Navbar.tsx")).1)
            (last_seg_slash (rsplit_dot (str "components/Navbar.tsx")).1 ++ str "2")
            (str "export default function Navbar() \x7b return 2; \x7d")⟩] ∧
      p2 = (rsplit_dot (str "components/Navbar.tsx")).1 ++ str "2" ++
        '.' :: (rsplit_dot (str "components/Navbar.tsx")).2 ∧
      p2 ≠ str "components/Navbar.tsx" :=
  C5_collision_rename (str "components/Navbar.tsx")
    (str "export default function Navbar() \x7b return 1; \x7d")
    (str "export default function Navbar() \x7b return 2; \x7d") [] [] (by decide)

/-- C6 (corrected): parse_multi_file_output itself performs no safety
filtering: the unsafe token appears verbatim in the parsed deps list. -/
theorem C6_deps_parse_counterexample :
    str "bad;rm -rf /" ∈ (parse_multi_file_output (str "// DEPS: good-pkg, bad;rm -rf /")).deps := by
  decide

/-- C6 (amended): parsing the declaration keeps both comma-separated tokens
verbatim (the declaration itself is removed from the code, fail-soft); the
unsafe token is dropped only later, at the deployment boundary, where the
safe-dependency filter of deploy_to_sandbox keeps good-pkg and drops the
token with the shell metacharacters. -/
theorem C6_deps_parse_amended :
    (parse_multi_file_output (str "// DEPS: good-pkg, bad;rm -rf /")).deps =
      [str "good-pkg", str "bad;rm -rf /"] ∧
    safe_deps_of (parse_multi_file_output (str "// DEPS: good-pkg, bad;rm -rf /")).deps =
      [str "good-pkg"] := by
  constructor <;> rfl

/-! ## Strip idempotence and non-emptiness helpers -/

theorem dropWhile_idem (p : Char → Bool) : ∀ l : Str, (l.dropWhile p).dropWhile p = l.dropWhile p := by
  intro l
  induction l with
  | nil => rfl
  | cons c t ih =>
    by_cases h : p c
    · simp [List.dropWhile_cons, h, ih]
    · simp [List.dropWhile_cons, h]

theorem dropWhile_head_false (p : Char → Bool) (c : Char) (rest : Str)
    (h : List.dropWhile p (c :: rest) = c :: rest) : p c = false := by
  by_cases hc : p c
  · rw [List.dropWhile_cons, if_pos hc] at h
    have := congrArg List.length h
    have hlen : (List.dropWhile p rest).length ≤ rest.length :=
      List.Sublist.length_le (List.dropWhile_sublist p)
    simp at this
    omega
  · simpa using hc

theorem strip_end_of_dropWhile (p : Char → Bool) (s : Str) :
    List.dropWhile p (((List.dropWhile p s).reverse.dropWhile p).reverse) =
      ((List.dropWhile p s).reverse.dropWhile p).reverse := by
  set A := List.dropWhile p s with hA
  have hApre : ((A.reverse.dropWhile p).reverse) <+: A := by
    apply List.reverse_suffix.mp
    simp only [List.reverse_reverse]
    exact List.dropWhile_suffix p
  obtain ⟨t, ht⟩ := hApre
  cases hB : (A.reverse.dropWhile p).reverse with
  | nil => rfl
  | cons c rest =>
    have hAc : A = c :: (rest ++ t) := by
      rw [hB] at ht
      rw [← ht]
      simp
    have hAfix : List.dropWhile p A = A := by
      rw [hA]
      exact dropWhile_idem p s
    have hpc : p c = false := by
      apply dropWhile_head_false p c (rest ++ t)
      rw [← hAc]
      exact hAfix
    rw [List.dropWhile_cons, if_neg (by simp [hpc])]

theorem pyStrip_idem (s : Str) : pyStrip (pyStrip s) = pyStrip s := by
  unfold pyStrip
  rw [strip_end_of_dropWhile pyIsSpace s]
  rw [List.reverse_reverse, dropWhile_idem]

theorem clean_code_strip (s : Str) : clean_code (pyStrip s) = clean_code s := by
  unfold clean_code
  rw [pyStrip_idem]

theorem has_sub_of_prefix (pat s : Str) (h : pat.isPrefixOf s = true) :
    has_sub pat s = true := by
  cases s with
  | nil =>
    cases pat with
    | nil => rfl
    | cons c r => simp [List.isPrefixOf] at h
  | cons c rest => simp [has_sub, h]

theorem ne_nil_of_has_sub (pat s : Str) (hpat : pat ≠ []) (h : has_sub pat s = true) :
    s ≠ [] := by
  intro hs
  subst hs
  simp [has_sub, List.isEmpty_iff] at h
  exact hpat h

theorem ensure_use_client_marker (e : Str) :
    has_sub (str "\"use client\"") (ensure_use_client e) = true ∨
    has_sub (str "'use client'") (ensure_use_client e) = true := by
  unfold ensure_use_client
  by_cases h : (!has_sub (str "\"use client\"") e && !has_sub (str "'use client'") e) = true
  · rw [if_pos h]
    left
    apply has_sub_of_prefix
    apply List.isPrefixOf_iff_prefix.mpr
    refine ⟨str ";\n" ++ e, ?_⟩
    rw [← List.append_assoc]
    rfl
  · rw [if_neg h]
    simp only [Bool.and_eq_true, Bool.not_eq_true', not_and, Bool.not_eq_false] at h
    by_cases h1 : has_sub (str "\"use client\"") e = true
    · exact Or.inl h1
    · right
      exact h (by simpa using h1)

theorem use_client_payload_ne_nil (s : Str) (mr : Str × Str)
    (hm : use_client_line_at s = some mr) : mr.1 ≠ [] := by
  unfold use_client_line_at at hm
  cases hpfx : isPfx (str "\"use client\"") s with
  | none => rw [hpfx] at hm; simp at hm
  | some s1 =>
    rw [hpfx] at hm
    simp only [Option.bind_eq_bind, Option.some_bind, Option.map_eq_some'] at hm
    obtain ⟨cr, _, hmr⟩ := hm
    rw [← hmr]
    simp [str]

theorem sub_first_use_client_ne_nil (il : Str) :
    ∀ (fuel : Nat) (s : Str), s ≠ [] →
    sub_first use_client_line_at (fun m => m ++ il) fuel s ≠ [] := by
  intro fuel
  induction fuel with
  | zero => intro s hs; simpa [sub_first] using hs
  | succ fuel ih =>
    intro s hs
    cases s with
    | nil => exact absurd rfl hs
    | cons c rest =>
      simp only [sub_first]
      cases hm : use_client_line_at (c :: rest) with
      | none => simp
      | some mr =>
        have hm1 : mr.1 ≠ [] := use_client_payload_ne_nil _ _ hm
        simp only [ne_eq, List.append_eq_nil, not_and]
        intro hcontra
        exact absurd hcontra.1 hm1

theorem fix_missing_imports_ne_nil (c : Str)
    (h : has_sub (str "\"use client\"") c = true ∨ has_sub (str "'use client'") c = true) :
    fix_missing_imports c ≠ [] := by
  have hc : c ≠ [] := by
    rcases h with h | h
    · exact ne_nil_of_has_sub _ _ (by decide) h
    · exact ne_nil_of_has_sub _ _ (by decide) h
  simp only [fix_missing_imports]
  split
  · exact hc
  · split
    · simp [List.append_eq_nil]
    · exact sub_first_use_client_ne_nil _ _ c hc

theorem clean_code_ne_nil (c : Str) : clean_code c ≠ [] := by
  unfold clean_code clean_code_after
  exact fix_missing_imports_ne_nil _ (ensure_use_client_marker _)

theorem filterMap_all_some_length {α β : Type} (f : α → Option β) :
    ∀ l : List α, (∀ a ∈ l, (f a).isSome = true) → (l.filterMap f).length = l.length := by
  intro l
  induction l with
  | nil => intro _; rfl
  | cons a t ih =>
    intro h
    obtain ⟨b, hb⟩ := Option.isSome_iff_exists.mp (h a (List.mem_cons_self a t))
    rw [List.filterMap_cons, hb, List.length_cons]
    rw [ih (fun x hx => h x (List.mem_cons_of_mem a hx))]
    rfl

/-- C8 (confirmed): when the remaining text (after the initial strip) holds
no dependency-declaration line and fewer than two file-boundary markers of
either style, parsing yields exactly one file at app/page.tsx whose
content is the whole input text after _clean_code's cleaning, and no deps. -/
theorem C8_single_file_fallback :
    ∀ raw : Str,
    search_scan true (marker_line_at (str "DEPS:")) ((pyStrip raw).length + 1) true
      (pyStrip raw) = none →
    search_scan true (plain_marker_at (str "DEPS:")) ((pyStrip raw).length + 1) true
      (pyStrip raw) = none →
    (split_files_scan (marker_line_at (str "FILE:")) ((pyStrip raw).length + 1) true
      (pyStrip raw)).2.length < 2 →
    (split_files_scan (plain_marker_at (str "FILE:")) ((pyStrip raw).length + 1) true
      (pyStrip raw)).2.length < 2 →
    parse_multi_file_output raw = ⟨[⟨str "app/page.tsx", clean_code raw⟩], []⟩ := by
  intro raw h1 h2 h3 h4
  have hdr : parse_deps_stage raw = ([], pyStrip raw) := by
    simp only [parse_deps_stage, h1, h2]
  have hsel : select_file_markers (pyStrip raw) =
      (split_files_scan (marker_line_at (str "FILE:")) ((pyStrip raw).length + 1) true
        (pyStrip raw)).2 := by
    simp only [select_file_markers]
    rw [if_pos h3, if_neg (by omega : ¬ (split_files_scan (plain_marker_at (str "FILE:"))
      ((pyStrip raw).length + 1) true (pyStrip raw)).2.length ≥ 2)]
  simp only [parse_multi_file_output, hdr, parse_split_stage, hsel]
  rw [if_neg (by omega : ¬ (split_files_scan (marker_line_at (str "FILE:"))
    ((pyStrip raw).length + 1) true (pyStrip raw)).2.length ≥ 2)]
  rw [if_neg (by simpa [List.isEmpty_iff] using clean_code_ne_nil (pyStrip raw))]
  rw [clean_code_strip]

/-- C8 witness: the theorem applied to a marker-free input. -/
theorem C8_single_file_fallback_witness :
    parse_multi_file_output (str "const x = 1;") =
      ⟨[⟨str "app/page.tsx", clean_code (str "const x = 1;")⟩], []⟩ :=
  C8_single_file_fallback (str "const x = 1;") (by decide) (by decide) (by decide) (by decide)

/-- C9 (corrected): an input with no recognizable code still yields one
default file (never an empty list): the cleaner injects the client
directive, so the fallback file is non-empty and is kept. -/
theorem C9_no_code_counterexample :
    (parse_multi_file_output (str "No code found")).files =
      [⟨str "app/page.tsx", str "\"use client\";\nNo code found"⟩] := by rfl

/-- The splitting stage never returns an empty files list: multi-file mode
keeps every delimited chunk (per-chunk cleaning never returns an empty
content), and fallback mode always produces the single default file. -/
theorem parse_split_stage_files_ne_nil (deps : List Str) (raw3 : Str) :
    (parse_split_stage deps raw3).files ≠ [] := by
  simp only [parse_split_stage]
  by_cases hge : (select_file_markers raw3).length ≥ 2
  · rw [if_pos hge]
    intro hnil
    have hlen := congrArg List.length hnil
    rw [filterMap_all_some_length] at hlen
    · simp only [List.length_nil] at hlen
      omega
    · intro gs _
      have h2 : (clean_code gs.2).isEmpty = false := by
        simpa [List.isEmpty_iff] using clean_code_ne_nil gs.2
      simp [h2]
  · rw [if_neg hge]
    rw [if_neg (by simpa [List.isEmpty_iff] using clean_code_ne_nil _)]
    simp

/-- C9 (amended): parsing is total — every input yields a well-defined
files-and-deps result — and the files list is never empty rather than
empty on inputs with no recognizable code. -/
theorem C9_parse_total_amended : ∀ raw : Str, (parse_multi_file_output raw).files ≠ [] := by
  intro raw
  exact parse_split_stage_files_ne_nil _ _

/-- C10 (confirmed): fix_build_errors returns an empty extra-deps list and
modifies at most the one matched entry: when no failing file is identified
(or none matches), the files map is returned unchanged; when one is, the
path set is unchanged and every entry at any other path is untouched. -/
theorem C10_fix_frame :
    ∀ (llm_raw : Str) (files : List (Str × Str)) (error_text : Str),
    (fix_build_errors llm_raw files error_text).2 = [] ∧
    (match (find_failing_file error_text).bind (match_generated_key files) with
     | none => (fix_build_errors llm_raw files error_text).1 = files
     | some k =>
       (fix_build_errors llm_raw files error_text).1.map Prod.fst = files.map Prod.fst ∧
       ∀ p c, p ≠ k →
         ((p, c) ∈ (fix_build_errors llm_raw files error_text).1 ↔ (p, c) ∈ files)) := by
  intro llm_raw files error_text
  cases hk : (find_failing_file error_text).bind (match_generated_key files) with
  | none =>
    refine ⟨?_, ?_⟩
    · simp [fix_build_errors, hk]
    · simp only [hk]
      simp [fix_build_errors, hk]
  | some k =>
    refine ⟨?_, ?_⟩
    · simp [fix_build_errors, hk]
    · simp only [hk]
      constructor
      · simp only [fix_build_errors, hk]
        rw [List.map_map]
        apply List.map_congr_left
        intro pc _
        by_cases hpc : pc.1 = k <;> simp [hpc]
      · intro p c hp
        simp only [fix_build_errors, hk]
        constructor
        · intro hmem
          obtain ⟨qc, hqc, heq⟩ := List.mem_map.mp hmem
          by_cases hq : qc.1 = k
          · rw [if_pos hq] at heq
            have h1 : qc.1 = p := by
              have := congrArg Prod.fst heq
              simpa using this
            rw [h1] at hq
            exact absurd hq hp
          · rw [if_neg hq] at heq
            exact heq ▸ hqc
        · intro hmem
          apply List.mem_map.mpr
          refine ⟨(p, c), hmem, ?_⟩
          rw [if_neg (by simpa using hp)]

/-! ## clean_html preservation helpers -/

/-- Decidable check that a predicate holds on every suffix. -/
def suffix_all (p : Str → Bool) : Str → Bool
  | [] => p []
  | s@(_ :: rest) => p s && suffix_all p rest

/-- The closing tag has no non-trivial case-insensitive overlap with
itself: a non-empty text that does not open the closing tag still does not
open it after being extended by the closing tag and anything further. -/
theorem ci_pfx_close_extend (rest : Str) (b : Str) (hb : b ≠ [])
    (h : ci_pfx (str "</svg>") b = none) :
    ci_pfx (str "</svg>") (b ++ (str "</svg>" ++ rest)) = none := by
  cases b with
  | nil => exact absurd rfl hb
  | cons c1 b1 =>
    rw [show str "</svg>" = '<' :: str "/svg>" from rfl] at h ⊢
    simp only [List.cons_append, ci_pfx] at h ⊢
    by_cases m1 : ('<'.toLower == c1.toLower) = true
    · rw [if_pos m1] at h ⊢
      cases b1 with
      | nil => rfl
      | cons c2 b2 =>
        rw [show str "/svg>" = '/' :: str "svg>" from rfl] at h ⊢
        simp only [List.cons_append, ci_pfx] at h ⊢
        by_cases m2 : ('/'.toLower == c2.toLower) = true
        · rw [if_pos m2] at h ⊢
          cases b2 with
          | nil => rfl
          | cons c3 b3 =>
            rw [show str "svg>" = 's' :: str "vg>" from rfl] at h ⊢
            simp only [List.cons_append, ci_pfx] at h ⊢
            by_cases m3 : ('s'.toLower == c3.toLower) = true
            · rw [if_pos m3] at h ⊢
              cases b3 with
              | nil => rfl
              | cons c4 b4 =>
                rw [show str "vg>" = 'v' :: str "g>" from rfl] at h ⊢
                simp only [List.cons_append, ci_pfx] at h ⊢
                by_cases m4 : ('v'.toLower == c4.toLower) = true
                · rw [if_pos m4] at h ⊢
                  cases b4 with
                  | nil => rfl
                  | cons c5 b5 =>
                    rw [show str "g>" = 'g' :: str ">" from rfl] at h ⊢
                    simp only [List.cons_append, ci_pfx] at h ⊢
                    by_cases m5 : ('g'.toLower == c5.toLower) = true
                    · rw [if_pos m5] at h ⊢
                      cases b5 with
                      | nil => rfl
                      | cons c6 b6 =>
                        rw [show str ">" = '>' :: ([] : Str) from rfl] at h ⊢
                        simp only [List.cons_append, ci_pfx] at h ⊢
                        by_cases m6 : ('>'.toLower == c6.toLower) = true
                        · rw [if_pos m6] at h
                          exact absurd h (by simp [ci_pfx])
                        · rw [if_neg m6]
                    · rw [if_neg m5]
                · rw [if_neg m4]
            · rw [if_neg m3]
        · rw [if_neg m2]
    · rw [if_neg m1]

theorem svg_stash_go_id :
    ∀ (s : Str), suffix_all (fun t => (ci_pfx (str "<svg") t).isNone) s = true →
    ∀ (fuel : Nat) (acc : List Str), svg_stash_go fuel s acc = (s, acc) := by
  intro s
  induction s with
  | nil =>
    intro _ fuel acc
    cases fuel <;> rfl
  | cons c rest ih =>
    intro h fuel acc
    simp only [suffix_all, Bool.and_eq_true] at h
    cases fuel with
    | zero => rfl
    | succ fuel =>
      have hci : ci_pfx (str "<svg") (c :: rest) = none := by
        have := h.1
        cases hx : ci_pfx (str "<svg") (c :: rest)
        · rfl
        · rw [hx] at this; simp at this
      simp only [svg_stash_go, hci]
      rw [ih h.2 fuel acc]

theorem svg_stash_go_hit (fuel : Nat) (s after mid rem : Str) (acc : List Str)
    (h1 : ci_pfx (str "<svg") s = some after)
    (h2 : find_ci_through (str "</svg>") (after.length + 1) after = some (mid, rem))
    (hs : s ≠ []) :
    svg_stash_go (fuel + 1) s acc =
      (svg_placeholder acc.length ++
        (svg_stash_go fuel rem (acc ++ [trunc_svg (s.take 4 ++ mid)])).1,
       (svg_stash_go fuel rem (acc ++ [trunc_svg (s.take 4 ++ mid)])).2) := by
  cases s with
  | nil => exact absurd rfl hs
  | cons c rest => simp [svg_stash_go, h1, h2]

theorem find_ci_step_miss (pat : Str) (c : Char) (rest : Str) (fuel : Nat)
    (h : ci_pfx pat (c :: rest) = none) :
    find_ci_through pat (fuel + 1) (c :: rest) =
      (find_ci_through pat fuel rest).map (fun kr => (c :: kr.1, kr.2)) := by
  simp only [find_ci_through, h]
  cases find_ci_through pat fuel rest <;> simp

/-- Scanning for the closing tag skips a block interior that nowhere opens
the closing tag, and finds the explicit closing tag at the boundary. -/
theorem find_ci_close_skip :
    ∀ (mid : Str), suffix_all (fun t => (ci_pfx (str "</svg>") t).isNone) mid = true →
    ∀ (rest2 : Str) (fuel : Nat),
    find_ci_through (str "</svg>") (mid.length + fuel) (mid ++ (str "</svg>" ++ rest2)) =
      (find_ci_through (str "</svg>") fuel (str "</svg>" ++ rest2)).map
        (fun kr => (mid ++ kr.1, kr.2)) := by
  intro mid
  induction mid with
  | nil =>
    intro _ rest2 fuel
    simp only [List.length_nil, Nat.zero_add, List.nil_append]
    cases find_ci_through (str "</svg>") fuel (str "</svg>" ++ rest2) <;> simp
  | cons c bs ih =>
    intro h rest2 fuel
    simp only [suffix_all, Bool.and_eq_true] at h
    have hcb : ci_pfx (str "</svg>") (c :: bs) = none := by
      have h1 := h.1
      cases hx : ci_pfx (str "</svg>") (c :: bs)
      · rfl
      · rw [hx] at h1; simp at h1
    have hpfx : ci_pfx (str "</svg>") (c :: (bs ++ (str "</svg>" ++ rest2))) = none :=
      ci_pfx_close_extend rest2 (c :: bs) (by simp) hcb
    have hlen : (c :: bs).length + fuel = (bs.length + fuel) + 1 := by
      simp [List.length_cons]
      omega
    rw [hlen]
    show find_ci_through (str "</svg>") ((bs.length + fuel) + 1)
      (c :: (bs ++ (str "</svg>" ++ rest2))) = _
    rw [find_ci_step_miss (str "</svg>") c (bs ++ (str "</svg>" ++ rest2))
      (bs.length + fuel) hpfx]
    rw [ih h.2 rest2 fuel]
    cases find_ci_through (str "</svg>") fuel (str "</svg>" ++ rest2) <;> simp

theorem pyStrip_id_of_ends (s : Str)
    (hc : ∀ c, s.head? = some c → pyIsSpace c = false)
    (hd : ∀ d, s.getLast? = some d → pyIsSpace d = false) : pyStrip s = s := by
  cases s with
  | nil => rfl
  | cons c t =>
    have hc' := hc c rfl
    have h1 : (c :: t).dropWhile pyIsSpace = c :: t := by
      rw [List.dropWhile_cons]
      simp [hc']
    obtain ⟨d, hd'⟩ : ∃ d, (c :: t).getLast? = some d := by
      cases hgl : (c :: t).getLast? with
      | none => simp at hgl
      | some d => exact ⟨d, rfl⟩
    obtain ⟨l', hl'⟩ := List.getLast?_eq_some_iff.mp hd'
    have hd2 := hd d hd'
    unfold pyStrip
    rw [h1]
    have h2 : (c :: t).reverse.dropWhile pyIsSpace = (c :: t).reverse := by
      rw [hl', List.reverse_append]
      simp only [List.reverse_cons, List.reverse_nil, List.nil_append, List.singleton_append]
      rw [List.dropWhile_cons]
      simp [hd2]
    rw [h2, List.reverse_reverse]

theorem stash_svg_block (mid rest2 : Str)
    (hb : suffix_all (fun t => (ci_pfx (str "</svg>") t).isNone) mid = true)
    (hr : suffix_all (fun t => (ci_pfx (str "<svg") t).isNone) rest2 = true) :
    svg_stash_go ((str "<svg" ++ (mid ++ (str "</svg>" ++ rest2))).length + 1)
        (str "<svg" ++ (mid ++ (str "</svg>" ++ rest2))) [] =
      (svg_placeholder 0 ++ rest2, [trunc_svg (str "<svg" ++ (mid ++ str "</svg>"))]) := by
  have h1 : ci_pfx (str "<svg") (str "<svg" ++ (mid ++ (str "</svg>" ++ rest2))) =
      some (mid ++ (str "</svg>" ++ rest2)) := rfl
  have hccc : find_ci_through (str "</svg>") ((str "</svg>" ++ rest2).length + 1)
      (str "</svg>" ++ rest2) = some (str "</svg>", rest2) := rfl
  have hT : find_ci_through (str "</svg>")
      ((mid ++ (str "</svg>" ++ rest2)).length + 1) (mid ++ (str "</svg>" ++ rest2)) =
      some (mid ++ str "</svg>", rest2) := by
    rw [show (mid ++ (str "</svg>" ++ rest2)).length + 1 =
      mid.length + ((str "</svg>" ++ rest2).length + 1) from by
        simp [List.length_append]
        omega]
    rw [find_ci_close_skip mid hb rest2 ((str "</svg>" ++ rest2).length + 1)]
    rw [hccc]
    rfl
  have hmain := svg_stash_go_hit ((str "<svg" ++ (mid ++ (str "</svg>" ++ rest2))).length)
    (str "<svg" ++ (mid ++ (str "</svg>" ++ rest2)))
    (mid ++ (str "</svg>" ++ rest2))
    (mid ++ str "</svg>") rest2 [] h1 hT (by simp [str])
  rw [hmain]
  have htake : (str "<svg" ++ (mid ++ (str "</svg>" ++ rest2))).take 4 ++
      (mid ++ str "</svg>") = str "<svg" ++ (mid ++ str "</svg>") := rfl
  rw [htake]
  rw [svg_stash_go_id rest2 hr _ _]
  simp

/-- C7 (corrected): an svg block whose path d-attribute holds 500 or more
characters is not preserved character for character: the cleaning step
truncates the attribute value and appends an ellipsis, exactly as the
function's own docstring says, so the input block does not occur in the
output. -/
theorem C7_svg_verbatim_counterexample :
    has_sub (str "<svg><path d=\"" ++ (List.replicate 500 'a' ++ str "\"/></svg>"))
      (clean_html (str "<p>x</p><svg><path d=\"" ++
        (List.replicate 500 'a' ++ str "\"/></svg>"))) = false ∧
    clean_html (str "<p>x</p><svg><path d=\"" ++ (List.replicate 500 'a' ++ str "\"/></svg>")) =
      str "<p>x</p><svg><path d=\"" ++ (List.replicate 500 'a' ++ str "...\"/></svg>") := by
  constructor
  · rfl
  · rfl

/-- C7 (amended): the cleaned HTML has script, style, noscript, comment and
event-handler-attribute content stripped, and an svg block — everything
from an opening "<svg" through the first following "</svg>" — is stashed
and reinserted verbatim whenever the path-data truncation leaves it
unchanged, that is, whenever no d-attribute value reaches 500 characters
(longer values get cut with an ellipsis): for every block interior that
does not itself open the closing tag anywhere — attributes, whitespace,
child elements and short d-attributes all allowed — if the truncation pass
returns the block unchanged, cleaning the block followed by
handler-bearing, script, style, noscript and comment markup returns the
block character for character, with the other content stripped down to
its text. -/
theorem C7_svg_preserved_amended :
    ∀ mid : Str,
    suffix_all (fun t => (ci_pfx (str "</svg>") t).isNone) mid = true →
    trunc_svg (str "<svg" ++ (mid ++ str "</svg>")) = str "<svg" ++ (mid ++ str "</svg>") →
    clean_html (str "<svg" ++ (mid ++ (str "</svg>" ++
      str "<div onclick=\"e()\"><script>var a=1;</script><style>.x\x7bcolor:red\x7d</style><noscript>n</noscript><!-- c -->hi</div>"))) =
      (str "<svg" ++ (mid ++ str "</svg>")) ++ str "<div>hi</div>" := by
  intro mid hb htr
  have hr : suffix_all (fun t => (ci_pfx (str "<svg") t).isNone)
      (str "<div onclick=\"e()\"><script>var a=1;</script><style>.x\x7bcolor:red\x7d</style><noscript>n</noscript><!-- c -->hi</div>") = true := by
    decide
  have hstash := stash_svg_block mid
    (str "<div onclick=\"e()\"><script>var a=1;</script><style>.x\x7bcolor:red\x7d</style><noscript>n</noscript><!-- c -->hi</div>")
    hb hr
  rw [htr] at hstash
  simp only [clean_html, hstash]
  rw [show clean_html_passes (svg_placeholder 0 ++
      str "<div onclick=\"e()\"><script>var a=1;</script><style>.x\x7bcolor:red\x7d</style><noscript>n</noscript><!-- c -->hi</div>") =
      svg_placeholder 0 ++ str "<div>hi</div>" from rfl]
  show pyStrip (py_replace (svg_placeholder 0 ++ str "<div>hi</div>") (svg_placeholder 0)
      (str "<svg" ++ (mid ++ str "</svg>"))) = _
  rw [show py_replace (svg_placeholder 0 ++ str "<div>hi</div>") (svg_placeholder 0)
      (str "<svg" ++ (mid ++ str "</svg>")) =
      (str "<svg" ++ (mid ++ str "</svg>")) ++ str "<div>hi</div>" from rfl]
  apply pyStrip_id_of_ends
  · intro c hc
    rw [show ((str "<svg" ++ (mid ++ str "</svg>")) ++ str "<div>hi</div>").head? =
      some '<' from rfl] at hc
    cases hc
    decide
  · intro d hd
    rw [List.getLast?_append_of_ne_nil _ (by decide)] at hd
    rw [show (str "<div>hi</div>").getLast? = some '>' from rfl] at hd
    cases hd
    decide

/-- C7 witness: the amended theorem at a concrete svg block carrying a
viewBox attribute, whitespace, a child path element and a short path
d-attribute. -/
theorem C7_svg_preserved_witness :
    clean_html (str "<svg" ++
      (str " viewBox=\"0 0 24 24\"><path d=\"M12 2L2 7l10 5 10-5-10-5z\"/>" ++ (str "</svg>" ++
      str "<div onclick=\"e()\"><script>var a=1;</script><style>.x\x7bcolor:red\x7d</style><noscript>n</noscript><!-- c -->hi</div>"))) =
      (str "<svg" ++
        (str " viewBox=\"0 0 24 24\"><path d=\"M12 2L2 7l10 5 10-5-10-5z\"/>" ++
          str "</svg>")) ++ str "<div>hi</div>" :=
  C7_svg_preserved_amended
    (str " viewBox=\"0 0 24 24\"><path d=\"M12 2L2 7l10 5 10-5-10-5z\"/>")
    (by decide) (by decide)
